import Mathlib

/-!
Shallow embedding of the simulation core of `rustyhex` (`src/game.rs`).

The core owns a toroidal hex grid of tiles, a registry of non-owning
handles to live actors, an optional player handle and a random source.
The grid/creature collaborators (`map.rs`, `creature.rs`, `hex2d`) are
not part of the packaged source; the pieces of their contracts the core
relies on are modelled from the specification and marked as such.

Ownership model: in the Rust source a tile owns its occupant through an
`Rc<RefCell<Creature>>` and the registry and the player slot hold `Weak`
references.  Following the arena re-architecture the specification
itself describes as semantically identical, creatures live in a store
(`List (Option Creature)`) addressed by stable indices; tiles and the
registry hold indices.  Dropping the last strong reference (clearing a
tile occupant) becomes setting the store slot to `none`; upgrading a
weak handle becomes a store lookup.
-/

namespace RustyHex

/-- Terrain kinds of a tile (`map.rs` via `use map::{Wall,Floor,GlassWall,Sand}`). -/
inductive TileType
  | Wall
  | Floor
  | GlassWall
  | Sand
deriving DecidableEq

/-- Modelled from the spec: passability considers terrain only, never
occupancy (section 4.2 note); floors and sand are walkable, the two wall
kinds are not. -/
def TileType.is_passable : TileType → Bool
  | .Floor => true
  | .Sand => true
  | .Wall => false
  | .GlassWall => false

/-- Modelled from the spec: an axial hex coordinate (`hex2d::Point`). -/
structure Point where
  x : Int
  y : Int
deriving DecidableEq

/-- Modelled from the spec: a direction is one of six hex directions or,
only within Move/Run, one of the relative markers Forward/Backward
(`hex2d::Direction` with `Forward`, `Backward`). -/
inductive Direction
  | Hex (i : Fin 6)
  | Forward
  | Backward
deriving DecidableEq

/-- Modelled from the spec: axial offsets of the six hex neighbor
directions. -/
def dirOffset (f : Fin 6) : Int × Int :=
  match f.val with
  | 0 => (1, 0)
  | 1 => (1, -1)
  | 2 => (0, -1)
  | 3 => (-1, 0)
  | 4 => (-1, 1)
  | _ => (0, 1)

/-- Modelled from the spec: `point + direction` steps to the neighbor
cell in that absolute direction. -/
def Point.step (p : Point) (f : Fin 6) : Point :=
  ⟨p.x + (dirOffset f).1, p.y + (dirOffset f).2⟩

/-- Modelled from the spec: `facing + direction` rotates a facing;
Forward keeps it, Backward reverses it, a hex direction adds mod 6
(spec test: facing 0 plus Turn(2) yields facing 2). -/
def dirAdd (f : Fin 6) : Direction → Fin 6
  | .Hex i => f + i
  | .Forward => f
  | .Backward => f + 3

/-- Modelled from the spec: a position is a wrap-normalized point plus a
facing, one of six directions (`hex2d::Position`). -/
structure Position where
  p : Point
  dir : Fin 6
deriving DecidableEq

/-- Modelled from the spec: `position + direction` rotates the facing
and keeps the point (used by the Turn action). -/
def Position.addDir (pos : Position) (d : Direction) : Position :=
  ⟨pos.p, dirAdd pos.dir d⟩

/-- A tile: terrain kind plus optional occupant.  The occupant is a
store index standing for the owning `Rc` of the Rust source. -/
structure Tile where
  tiletype : TileType
  creature : Option Nat
deriving DecidableEq

/-- Modelled from the spec: a fixed-size wrap-around 2D surface of
tiles with point normalization and tile access (`hex2d::Map`).  Tiles
are stored row-major. -/
structure Map where
  width : Nat
  height : Nat
  tiles : List Tile
deriving DecidableEq

/-- Modelled from the spec: wrap-around point normalization modulo the
grid dimensions. -/
def Map.wrap (m : Map) (p : Point) : Point :=
  ⟨p.x % (m.width : Int), p.y % (m.height : Int)⟩

/-- Modelled from the spec: position wrapping normalizes the point and
keeps the facing. -/
def Map.wrapPos (m : Map) (pos : Position) : Position :=
  ⟨m.wrap pos.p, pos.dir⟩

/-- Row-major index of the wrapped point. -/
def Map.idx (m : Map) (p : Point) : Nat :=
  (p.y % (m.height : Int)).toNat * m.width + (p.x % (m.width : Int)).toNat

/-- Modelled from the spec: read access to the tile at a (wrapped)
point (`map.at`; `at` is a Lean keyword, hence the name). -/
def Map.tileAt (m : Map) (p : Point) : Tile :=
  m.tiles.getD (m.idx p) ⟨.Floor, none⟩

/-- Modelled from the spec: mutation of the occupant of the tile at a
(wrapped) point (`map.mut_at(p).creature = c`). -/
def Map.setCreatureAt (m : Map) (p : Point) (c : Option Nat) : Map :=
  { m with tiles := m.tiles.set (m.idx p) ⟨(m.tileAt p).tiletype, c⟩ }

/-- Modelled from the spec: mutation of the terrain of the tile at a
(wrapped) point (`map.mut_at(p).tiletype = t`). -/
def Map.setTileTypeAt (m : Map) (p : Point) (t : TileType) : Map :=
  { m with tiles := m.tiles.set (m.idx p) ⟨t, (m.tileAt p).creature⟩ }

/-- Modelled from the spec: fresh all-identical map of the given
dimensions (`hex2d::Map::new`). -/
def Map.mk0 (w h : Nat) (t : Tile) : Map :=
  ⟨w, h, List.replicate (w * h) t⟩

/-- Races of creatures (`creature.rs` via `use creature::{Race,...}`). -/
inductive Race
  | Human
  | Scout
  | Grunt
  | Heavy
deriving DecidableEq

/-- Modelled from the spec: the actor state the core relies on —
wrap-normalized position, previous-position bookkeeping, player flag,
race, health and combat state, and a perception-refresh flag
(`creature.rs`). -/
structure Creature where
  pos : Position
  pos_prev : Position
  player : Bool
  race : Race
  hp : Int
  att : Nat
  needs_action : Bool
  los_fresh : Bool
deriving DecidableEq

/-- Modelled from the spec: predicate is-alive; dead means no health
left. -/
def Creature.is_alive (c : Creature) : Bool :=
  0 < c.hp

/-- Modelled from the spec: per-race health (exact combat numbers are
the actor's own responsibility; concrete values chosen for the model). -/
def raceHp : Race → Int
  | .Human => 10
  | .Scout => 4
  | .Grunt => 8
  | .Heavy => 16

/-- Modelled from the spec: per-race attack damage (concrete values
chosen for the model). -/
def raceAtt : Race → Nat
  | .Human => 3
  | .Scout => 2
  | .Grunt => 3
  | .Heavy => 5

/-- Modelled from the spec: `Creature::new(&map, pos, player, race)`;
positions are stored wrap-normalized (section 3 data model). -/
def Creature.new (m : Map) (pos : Position) (player : Bool) (race : Race) : Creature :=
  { pos := m.wrapPos pos
    pos_prev := m.wrapPos pos
    player := player
    race := race
    hp := raceHp race
    att := raceAtt race
    needs_action := !player
    los_fresh := false }

/-- Modelled from the spec: `cr.pos_set(&map, pos)` stores the new
position. -/
def Creature.pos_set (c : Creature) (_m : Map) (pos : Position) : Creature :=
  { c with pos := pos }

/-- Modelled from the spec: `cr.pos_prev_set(&map, pos)` stores the
previous position used by presentation layers. -/
def Creature.pos_prev_set (c : Creature) (_m : Map) (pos : Position) : Creature :=
  { c with pos_prev := pos }

/-- Modelled from the spec: `cr.update_los(&map)` recomputes the
line-of-sight against the current grid. -/
def Creature.update_los (c : Creature) (_m : Map) : Creature :=
  { c with los_fresh := true }

/-- Modelled from the spec: `cr.action_done()` clears per-tick decision
state. -/
def Creature.action_done (c : Creature) : Creature :=
  { c with needs_action := false }

/-- Modelled from the spec: mutual-combat hook `target.attacked_by(attacker)`
— the attacker strikes the target. -/
def Creature.attacked_by (c : Creature) (attacker : Creature) : Creature :=
  { c with hp := c.hp - attacker.att }

/-- Modelled from the spec: mutual-combat hook `cr.attacked(target)` —
the target counters the attacker. -/
def Creature.attacked (c : Creature) (target : Creature) : Creature :=
  { c with hp := c.hp - target.att }

/-- The action protocol produced by actor decision logic (`game.rs`,
`enum Action`). -/
inductive Action
  | Run (d : Direction)
  | Move (d : Direction)
  | Turn (d : Direction)
  | Melee (d : Direction)
  | Use
  | Wait
deriving DecidableEq

/-- The simulation core state (`game.rs`, `struct GameState`): the
owned grid, optional player handle, the registry of non-owning handles
in spawn order, and the creature store (the arena standing for the
`Rc`-owned creatures; the random source is passed explicitly where
used). -/
structure GameState where
  map : Map
  player : Option Nat
  creatures : List Nat
  store : List (Option Creature)
deriving DecidableEq

/-- Upgrading a weak handle: the creature if its arena slot is still
allocated (`Weak::upgrade`). -/
def GameState.upgrade (s : GameState) (id : Nat) : Option Creature :=
  s.store.getD id none

/-- Writing through a handle into the arena slot. -/
def GameState.setCr (s : GameState) (id : Nat) (c : Option Creature) : GameState :=
  { s with store := s.store.set id c }

/-- `GameState::new()`: a fixed 100 by 100 all-floor grid, empty
registry, no player (`game.rs` lines 37-49). -/
def GameState.new : GameState :=
  { map := Map.mk0 100 100 ⟨.Floor, none⟩
    player := none
    creatures := []
    store := [] }

/-- `GameState::spawn` (`game.rs` lines 51-61): fails if the terrain of
the creature's tile is impassable; otherwise allocates the creature,
installs it as the tile occupant (dropping — deallocating — any
previous occupant, whose only strong reference was that tile), appends
a weak handle to the registry and returns the handle. -/
def GameState.spawn (s : GameState) (cr : Creature) : Option Nat × GameState :=
  if (s.map.tileAt cr.pos.p).tiletype.is_passable = false then
    (none, s)
  else
    let p := cr.pos.p
    let id := s.store.length
    let evicted := (s.map.tileAt p).creature
    let store1 := s.store ++ [some cr]
    let store2 := match evicted with
      | some old => store1.set old none
      | none => store1
    (some id, { s with
        map := s.map.setCreatureAt p (some id)
        store := store2
        creatures := s.creatures ++ [id] })

/-- `GameState::move_creature_if_possible` (`game.rs` lines 75-94):
pure in-place turn if the target point equals the current point; no-op
on impassable terrain; no-op when the target tile is occupied; else
move the owning reference from source tile to target tile and update
the stored position. -/
def GameState.move_creature_if_possible (s : GameState) (id : Nat) (pos : Position) : GameState :=
  match s.upgrade id with
  | none => s
  | some cr =>
    if pos.p = cr.pos.p then
      s.setCr id (some (cr.pos_set s.map pos))
    else if (s.map.tileAt pos.p).tiletype.is_passable = false then
      s
    else
      match (s.map.tileAt pos.p).creature with
      | some _ => s
      | none =>
        ({ s with
            map :=
              (s.map.setCreatureAt pos.p ((s.map.tileAt cr.pos.p).creature)).setCreatureAt
                cr.pos.p none }).setCr id
          (some (cr.pos_set
            ((s.map.setCreatureAt pos.p ((s.map.tileAt cr.pos.p).creature)).setCreatureAt
              cr.pos.p none) pos))

/-- `GameState::perform_action` (`game.rs` lines 135-166).  Records the
pre-action position as previous position, then dispatches; `none`
models the fatal `fail!("Illegal move")` on Turn with a relative
marker.  In the source the creature is reached through a live `&mut`
borrow, modelled by the store lookup. -/
def GameState.perform_action (s : GameState) (id : Nat) (action : Action) : Option GameState :=
  match s.upgrade id with
  | none => some s
  | some cr0 =>
    let old_pos := cr0.pos
    let cr := cr0.pos_prev_set s.map old_pos
    let s1 := s.setCr id (some cr)
    match action with
    | .Turn .Forward => none
    | .Turn .Backward => none
    | .Move d | .Run d =>
      let pos : Position :=
        ⟨s1.map.wrap (cr.pos.p.step (dirAdd cr.pos.dir d)), cr.pos.dir⟩
      some (s1.move_creature_if_possible id pos)
    | .Turn d =>
      let pos := s1.map.wrapPos (cr.pos.addDir d)
      some (s1.move_creature_if_possible id pos)
    | .Melee d =>
      let target_p := s1.map.wrap (cr.pos.p.step (dirAdd cr.pos.dir d))
      match (s1.map.tileAt target_p).creature with
      | none => some s1
      | some tid =>
        match s1.upgrade tid with
        | none => some s1
        | some tcr =>
          let tcr1 := tcr.attacked_by cr
          let s2 := s1.setCr tid (some tcr1)
          let cr1 := cr.attacked tcr1
          let s3 := s2.setCr id (some cr1)
          if tcr1.is_alive then some s3
          else some ({ s3 with map := s3.map.setCreatureAt target_p none }.setCr tid none)
    | .Use => some s1
    | .Wait => some s1

/-- One iteration of the tick pass over the snapshot (`game.rs` lines
99-119) plus the trace of handles that received a turn.  `none` models
a halt: the `assert!(!cr.is_player())` or a fatal `perform_action`. -/
def GameState.tickLoop (decide : Creature → Option Action) :
    List Nat → GameState × List Nat → Option (GameState × List Nat)
  | [], acc => some acc
  | id :: rest, (s, tr) =>
    match s.upgrade id with
    | none => GameState.tickLoop decide rest (s, tr)
    | some cr0 =>
      if cr0.needs_action && cr0.player then none
      else
        let cr := if cr0.needs_action then cr0.update_los s.map else cr0
        let s1 := s.setCr id (some cr)
        match decide cr with
        | none => GameState.tickLoop decide rest (s1, tr ++ [id])
        | some a =>
          match s1.perform_action id a with
          | none => none
          | some s2 =>
            let s3 := match s2.upgrade id with
              | none => s2
              | some cr2 => s2.setCr id (some cr2.action_done)
            GameState.tickLoop decide rest (s3, tr ++ [id])

/-- The action pass of `GameState::tick` over a shallow snapshot of the
registry, returning the post-pass state and the trace of handles that
received a turn.  The actor decision routine `cr.tick(&map)` is
supplied as the function `decide`. -/
def GameState.tickAux (decide : Creature → Option Action) (s : GameState) :
    Option (GameState × List Nat) :=
  GameState.tickLoop decide s.creatures (s, [])

/-- The retain predicate of the tick prune: the handle still upgrades
and the creature it resolves to is alive (`game.rs` lines 121-131). -/
def liveInB (store : List (Option Creature)) (id : Nat) : Bool :=
  match store.getD id none with
  | some cr => cr.is_alive
  | none => false

/-- The registry retain of `GameState::tick` (`game.rs` lines 121-131):
keep the handles that still upgrade to a living creature. -/
def pruneList (store : List (Option Creature)) (l : List Nat) : List Nat :=
  l.filter (fun id => liveInB store id)

/-- `GameState::tick` (`game.rs` lines 96-133): snapshot the registry,
run the pass, then prune the snapshot against the post-pass store and
install it as the new registry. -/
def GameState.tick (decide : Creature → Option Action) (s : GameState) : Option GameState :=
  (s.tickAux decide).map (fun acc =>
    { acc.1 with creatures := pruneList acc.1.store s.creatures })

/-- `GameState::update_player_los` (`game.rs` lines 223-229). -/
def GameState.update_player_los (s : GameState) : GameState :=
  match s.player with
  | none => s
  | some pid =>
    match s.upgrade pid with
    | none => s
    | some pl => s.setCr pid (some (pl.update_los s.map))

/-! ### Well-formedness, the simulation invariant, and its executable check -/

/-- In-range points: the canonical coordinates of the grid's tiles. -/
def Map.inRange (m : Map) (p : Point) : Prop :=
  0 ≤ p.x ∧ p.x < (m.width : Int) ∧ 0 ≤ p.y ∧ p.y < (m.height : Int)

instance (m : Map) (p : Point) : Decidable (m.inRange p) := by
  unfold Map.inRange; infer_instance

/-- Well-formedness of a map: the tile list covers the full grid and
both dimensions are positive. -/
structure Map.WF (m : Map) : Prop where
  len : m.tiles.length = m.width * m.height
  wpos : 0 < m.width
  hpos : 0 < m.height

/-- The inductive invariant tying the grid's occupant references to the
creature store: the map is well formed, every allocated creature sits
in range and is the occupant of the tile at its recorded position, and
every occupant reference of an in-range tile resolves to a creature
recorded exactly there. -/
def GameState.Inv (s : GameState) : Prop :=
  s.map.WF ∧
  (∀ id cr, s.upgrade id = some cr →
    s.map.inRange cr.pos.p ∧ (s.map.tileAt cr.pos.p).creature = some id) ∧
  (∀ p, s.map.inRange p → ∀ id, (s.map.tileAt p).creature = some id →
    ∃ cr, s.upgrade id = some cr ∧ cr.pos.p = p)

/-- The spec's per-tile invariant: every occupant's recorded position
equals its tile's coordinate, and no two tiles reference the same
actor. -/
def GameState.tileOccupancyOk (s : GameState) : Prop :=
  (∀ p, s.map.inRange p → ∀ id, (s.map.tileAt p).creature = some id →
    ∃ cr, s.upgrade id = some cr ∧ cr.pos.p = p) ∧
  (∀ p q, s.map.inRange p → s.map.inRange q → ∀ id,
    (s.map.tileAt p).creature = some id → (s.map.tileAt q).creature = some id → p = q)

/-- Executable check of the invariant, used to establish it on
concrete states. -/
def GameState.invB (s : GameState) : Bool :=
  decide (s.map.tiles.length = s.map.width * s.map.height) &&
  decide (0 < s.map.width) &&
  decide (0 < s.map.height) &&
  (List.range s.store.length).all (fun id =>
    match s.store.getD id none with
    | none => true
    | some cr =>
      decide (s.map.inRange cr.pos.p) &&
      decide ((s.map.tileAt cr.pos.p).creature = some id)) &&
  (List.range s.map.height).all (fun y =>
    (List.range s.map.width).all (fun x =>
      match (s.map.tileAt ⟨(x : Int), (y : Int)⟩).creature with
      | none => true
      | some id =>
        match s.store.getD id none with
        | none => false
        | some cr => decide (cr.pos.p = ⟨(x : Int), (y : Int)⟩)))

/-! ### Random source and world generation -/

/-- Modelled from the spec: the random source, as explicit streams of
the values that successive generator calls produce (`rand::TaskRng`),
with one cursor per requested value kind. -/
structure Rng where
  points : Nat → Point
  rolls : Nat → Nat
  positions : Nat → Position
  pi : Nat
  ri : Nat
  qi : Nat

/-- Modelled from the spec: `rng.gen::<Point>()`. -/
def Rng.genPoint (r : Rng) : Point × Rng :=
  (r.points r.pi, { r with pi := r.pi + 1 })

/-- Modelled from the spec: `rng.gen_range(0u, 6)`, a value below 6. -/
def Rng.genRange6 (r : Rng) : Nat × Rng :=
  (r.rolls r.ri % 6, { r with ri := r.ri + 1 })

/-- Modelled from the spec: `rng.gen::<Position>()`. -/
def Rng.genPosition (r : Rng) : Position × Rng :=
  (r.positions r.qi, { r with qi := r.qi + 1 })

/-- `GameState::spawn_random` (`game.rs` lines 64-73), supplied with
explicit fuel since the source loop is unbounded: sample a wrapped
random position, build a creature there, attempt `spawn`; return the
handle after the first success, or `none` when the fuel runs out while
the loop would still be retrying. -/
def GameState.spawn_randomF (s : GameState) (rng : Rng) (player : Bool) (race : Race) :
    Nat → Option (Nat × GameState × Rng)
  | 0 => none
  | fuel + 1 =>
    let pr := rng.genPosition
    let pos := s.map.wrapPos pr.1
    let cr := Creature.new s.map pos player race
    match s.spawn cr with
    | (some id, s2) => some (id, s2, pr.2)
    | (none, s2) => GameState.spawn_randomF s2 pr.2 player race fuel

/-- The terrain painting step of `randomize_map`: paint the point and
its six wrapped neighbors with the chosen kind (`game.rs` lines
183-187, iterating `hex2d::all_directions`). -/
def Map.paintHex (m : Map) (p : Point) (t : TileType) : Map :=
  (List.finRange 6).foldl (fun acc d => acc.setTileTypeAt (acc.wrap (p.step d)) t)
    (m.setTileTypeAt p t)

/-- The terrain seeding loop of `randomize_map` (`game.rs` lines
173-188): the given number of iterations of painting a random wrapped
hex cluster with a random kind weighted 1-in-6 glass wall, 1-in-6
sand, 4-in-6 wall. -/
def GameState.terrainSeed (s : GameState) (rng : Rng) : Nat → GameState × Rng
  | 0 => (s, rng)
  | n + 1 =>
    let pp := rng.genPoint
    let p := s.map.wrap pp.1
    let rr := pp.2.genRange6
    let t := match rr.1 with
      | 0 => TileType.GlassWall
      | 1 => TileType.Sand
      | _ => TileType.Wall
    GameState.terrainSeed { s with map := s.map.paintHex p t } rr.2 n

/-- The border forcing pass of `randomize_map` (`game.rs` lines
190-202): wall every tile on the four extreme rows and columns. -/
def Map.forceBorders (m : Map) : Map :=
  let m1 := (List.range m.width).foldl (fun acc x =>
    (acc.setTileTypeAt ⟨(x : Int), 0⟩ TileType.Wall).setTileTypeAt
      ⟨(x : Int), (m.height : Int) - 1⟩ TileType.Wall) m
  (List.range m.height).foldl (fun acc y =>
    (acc.setTileTypeAt ⟨0, (y : Int)⟩ TileType.Wall).setTileTypeAt
      ⟨(m.width : Int) - 1, (y : Int)⟩ TileType.Wall) m1

/-- One population loop of `randomize_map`: the given number of calls
of `spawn_random(false, race)` in sequence. -/
def GameState.spawnMany (s : GameState) (rng : Rng) (race : Race) (fuel : Nat) :
    Nat → Option (GameState × Rng)
  | 0 => some (s, rng)
  | n + 1 =>
    match s.spawn_randomF rng false race fuel with
    | none => none
    | some x => GameState.spawnMany x.2.1 x.2.2 race fuel n

/-- `GameState::randomize_map` (`game.rs` lines 168-221), with explicit
fuel for the unbounded spawn loops: terrain seeding for area/12
iterations, border walls, then area/200 scouts, area/400 grunts,
area/800 heavies (all non-player) and finally exactly one
player-controlled human whose handle is recorded as the player. -/
def GameState.randomize_mapF (s : GameState) (rng : Rng) (fuel : Nat) : Option GameState :=
  let area := s.map.width * s.map.height
  let t1 := s.terrainSeed rng (area / 12)
  let s1 := { t1.1 with map := t1.1.map.forceBorders }
  match s1.spawnMany t1.2 Race.Scout fuel (area / 200) with
  | none => none
  | some (s2, rng2) =>
    match s2.spawnMany rng2 Race.Grunt fuel (s.map.width * s.map.height / 400) with
    | none => none
    | some (s3, rng3) =>
      match s3.spawnMany rng3 Race.Heavy fuel (s.map.width * s.map.height / 800) with
      | none => none
      | some (s4, rng4) =>
        match s4.spawn_randomF rng4 true Race.Human fuel with
        | none => none
        | some (pid, s5, _) => some { s5 with player := some pid }

/-! ### Auxiliary predicates used by the statements -/

/-- The position recorded for a handle, when it still resolves. -/
def GameState.posOf (s : GameState) (id : Nat) : Option Position :=
  (s.upgrade id).map (fun c => c.pos)

/-- Every tile of the grid is impassable or occupied (the saturation
condition of the spec). -/
def GameState.saturatedB (s : GameState) : Bool :=
  s.map.tiles.all (fun t => !t.tiletype.is_passable || t.creature.isSome)

/-- Every tile of the grid is impassable. -/
def GameState.allImpassableB (s : GameState) : Bool :=
  s.map.tiles.all (fun t => !t.tiletype.is_passable)

/-- The occupant reference of a tile, if any, points below the given
store length. -/
def tileClosed (n : Nat) (t : Tile) : Bool :=
  match t.creature with
  | none => true
  | some id => decide (id < n)

/-- Every occupant reference on the grid points into the store; holds
for every reachable state and is preserved by world generation. -/
def GameState.storeClosedB (s : GameState) : Bool :=
  s.map.tiles.all (tileClosed s.store.length)

/-- Every store entry in the index interval is either deallocated or a
non-player creature of the given race (the shape of a population
segment produced by one spawn loop). -/
def GameState.segRaceOk (s : GameState) (a b : Nat) (r : Race) : Prop :=
  ∀ j, a ≤ j → j < b → ∀ cj, s.upgrade j = some cj → cj.race = r ∧ cj.player = false

/-! ### Concrete fixtures used by the witnesses -/

/-- A creature literal for concrete states. -/
def mkCr (x y : Int) (f : Fin 6) (hp : Int) (att : Nat) (pl : Bool) (r : Race) : Creature :=
  { pos := ⟨⟨x, y⟩, f⟩
    pos_prev := ⟨⟨x, y⟩, f⟩
    player := pl
    race := r
    hp := hp
    att := att
    needs_action := false
    los_fresh := false }

/-- Floor tile with no occupant. -/
def fTile : Tile := ⟨.Floor, none⟩

/-- Wall tile with no occupant. -/
def wTile : Tile := ⟨.Wall, none⟩

/-- A random source with constant streams. -/
def constRng (pt : Point) (roll : Nat) (pos : Position) : Rng :=
  { points := fun _ => pt
    rolls := fun _ => roll
    positions := fun _ => pos
    pi := 0
    ri := 0
    qi := 0 }

/-- Fixture: 2 by 2 floor grid with a single creature at the origin. -/
def stateW1 : GameState :=
  { map := ⟨2, 2, [⟨.Floor, some 0⟩, fTile, fTile, fTile]⟩
    player := none
    creatures := [0]
    store := [some (mkCr 0 0 0 10 3 false .Human)] }

/-- Fixture: 2 by 2 grid, creature at the origin facing direction 0,
wall on the tile it would move onto. -/
def stateW2 : GameState :=
  { map := ⟨2, 2, [⟨.Floor, some 0⟩, wTile, fTile, fTile]⟩
    player := none
    creatures := [0]
    store := [some (mkCr 0 0 0 10 3 false .Human)] }

/-- Fixture: attacker at the origin facing its victim on the next
tile; the attack is lethal. -/
def stateW3 : GameState :=
  { map := ⟨2, 2, [⟨.Floor, some 0⟩, ⟨.Floor, some 1⟩, fTile, fTile]⟩
    player := none
    creatures := [0, 1]
    store := [some (mkCr 0 0 0 10 5 false .Human), some (mkCr 1 0 0 3 1 false .Scout)] }

/-- Fixture: frail attacker next to a sturdy victim whose counter is
lethal to the attacker. -/
def stateW10 : GameState :=
  { map := ⟨2, 2, [⟨.Floor, some 0⟩, ⟨.Floor, some 1⟩, fTile, fTile]⟩
    player := none
    creatures := [0, 1]
    store := [some (mkCr 0 0 0 2 1 false .Human), some (mkCr 1 0 0 10 5 false .Scout)] }

/-- Fixture: one live creature and one dead creature, both registered. -/
def stateW5 : GameState :=
  { map := ⟨2, 2, [⟨.Floor, some 0⟩, ⟨.Floor, some 1⟩, fTile, fTile]⟩
    player := none
    creatures := [0, 1]
    store := [some (mkCr 0 0 0 10 3 false .Human), some (mkCr 1 0 0 0 1 false .Scout)] }

/-- Fixture: empty 2 by 2 floor grid. -/
def stateW6 : GameState :=
  { map := ⟨2, 2, [fTile, fTile, fTile, fTile]⟩
    player := none
    creatures := []
    store := [] }

/-- Fixture: a fully saturated 2 by 2 grid — three walls and one
occupied floor tile. -/
def stateW7 : GameState :=
  { map := ⟨2, 2, [wTile, wTile, wTile, ⟨.Floor, some 0⟩]⟩
    player := none
    creatures := [0]
    store := [some (mkCr 1 1 0 10 3 false .Scout)] }

/-- Fixture: all-wall 2 by 2 grid. -/
def stateW7b : GameState :=
  { map := ⟨2, 2, [wTile, wTile, wTile, wTile]⟩
    player := none
    creatures := []
    store := [] }

/-- Fixture: empty 4 by 4 floor grid (area 16, so world generation
spawns no monsters and exactly the player). -/
def stateW9 : GameState :=
  { map := ⟨4, 4, List.replicate 16 fTile⟩
    player := none
    creatures := []
    store := [] }

/-! ### Generic list-indexing lemmas used by the state proofs -/

theorem getD_set_self {α : Type _} (l : List α) (i : Nat) (a d : α) (h : i < l.length) :
    (l.set i a).getD i d = a := by
  rw [List.getD_eq_getElem?_getD, List.getElem?_set_self h]
  rfl

theorem getD_set_ne {α : Type _} (l : List α) {i j : Nat} (a d : α) (h : i ≠ j) :
    (l.set i a).getD j d = l.getD j d := by
  rw [List.getD_eq_getElem?_getD, List.getElem?_set_ne h, ← List.getD_eq_getElem?_getD]

theorem getD_append_lt {α : Type _} (l l2 : List α) (d : α) (n : Nat) (h : n < l.length) :
    (l ++ l2).getD n d = l.getD n d :=
  List.getD_append l l2 d n h

theorem getD_concat_self {α : Type _} (l : List α) (a d : α) :
    (l ++ [a]).getD l.length d = a := by
  rw [List.getD_append_right l [a] d l.length (le_refl _)]
  simp [List.getD]

theorem lt_length_of_getD_some {β : Type _} {l : List (Option β)} {n : Nat} {c : β}
    (h : l.getD n none = some c) : n < l.length := by
  by_contra hn
  rw [List.getD_eq_default l none (Nat.le_of_not_lt hn)] at h
  exact Option.noConfusion h

theorem all_set_of_all {α : Type _} {l : List α} {p : α → Bool} {i : Nat} {a : α}
    (hl : l.all p = true) (ha : p a = true) : (l.set i a).all p = true := by
  rw [List.all_eq_true] at hl ⊢
  intro x hx
  rcases List.mem_or_eq_of_mem_set hx with h | h
  · exact hl x h
  · subst h; exact ha

/-! ### Grid geometry lemmas -/

theorem Map.idx_lt {m : Map} (hw : 0 < m.width) (hh : 0 < m.height) (p : Point) :
    m.idx p < m.width * m.height := by
  have hwZ : ((m.width : Int)) ≠ 0 := by exact_mod_cast Nat.pos_iff_ne_zero.mp hw
  have hhZ : ((m.height : Int)) ≠ 0 := by exact_mod_cast Nat.pos_iff_ne_zero.mp hh
  have hx1 : p.x % (m.width : Int) < (m.width : Int) :=
    Int.emod_lt_of_pos _ (by exact_mod_cast hw)
  have hx0 : 0 ≤ p.x % (m.width : Int) := Int.emod_nonneg _ hwZ
  have hy1 : p.y % (m.height : Int) < (m.height : Int) :=
    Int.emod_lt_of_pos _ (by exact_mod_cast hh)
  have hy0 : 0 ≤ p.y % (m.height : Int) := Int.emod_nonneg _ hhZ
  have hx : (p.x % (m.width : Int)).toNat < m.width := by omega
  have hy : (p.y % (m.height : Int)).toNat < m.height := by omega
  unfold Map.idx
  calc (p.y % (m.height : Int)).toNat * m.width + (p.x % (m.width : Int)).toNat
      < (p.y % (m.height : Int)).toNat * m.width + m.width := by omega
    _ = ((p.y % (m.height : Int)).toNat + 1) * m.width := by ring
    _ ≤ m.height * m.width := Nat.mul_le_mul_right _ hy
    _ = m.width * m.height := Nat.mul_comm _ _

theorem Map.wrap_inRange {m : Map} (hw : 0 < m.width) (hh : 0 < m.height) (p : Point) :
    m.inRange (m.wrap p) := by
  have hwZ : ((m.width : Int)) ≠ 0 := by exact_mod_cast Nat.pos_iff_ne_zero.mp hw
  have hhZ : ((m.height : Int)) ≠ 0 := by exact_mod_cast Nat.pos_iff_ne_zero.mp hh
  refine ⟨Int.emod_nonneg _ hwZ, Int.emod_lt_of_pos _ (by exact_mod_cast hw),
    Int.emod_nonneg _ hhZ, Int.emod_lt_of_pos _ (by exact_mod_cast hh)⟩

theorem Map.wrap_eq_of_inRange {m : Map} {p : Point} (h : m.inRange p) :
    m.wrap p = p := by
  obtain ⟨h1, h2, h3, h4⟩ := h
  unfold Map.wrap
  cases p with
  | mk x y => simp_all [Int.emod_eq_of_lt]

theorem Map.idx_eq_of_inRange {m : Map} {p : Point} (h : m.inRange p) :
    m.idx p = p.y.toNat * m.width + p.x.toNat := by
  obtain ⟨h1, h2, h3, h4⟩ := h
  unfold Map.idx
  rw [Int.emod_eq_of_lt h1 h2, Int.emod_eq_of_lt h3 h4]

theorem Map.idx_inj {m : Map} {p q : Point} (hp : m.inRange p) (hq : m.inRange q)
    (h : m.idx p = m.idx q) : p = q := by
  rw [Map.idx_eq_of_inRange hp, Map.idx_eq_of_inRange hq] at h
  obtain ⟨hp1, hp2, hp3, hp4⟩ := hp
  obtain ⟨hq1, hq2, hq3, hq4⟩ := hq
  have hpx : p.x.toNat < m.width := by omega
  have hqx : q.x.toNat < m.width := by omega
  have hx : p.x.toNat = q.x.toNat := by
    have e1 : (p.y.toNat * m.width + p.x.toNat) % m.width = p.x.toNat := by
      rw [Nat.mul_comm p.y.toNat m.width, Nat.mul_add_mod, Nat.mod_eq_of_lt hpx]
    have e2 : (q.y.toNat * m.width + q.x.toNat) % m.width = q.x.toNat := by
      rw [Nat.mul_comm q.y.toNat m.width, Nat.mul_add_mod, Nat.mod_eq_of_lt hqx]
    rw [← e1, ← e2, h]
  have hy : p.y.toNat = q.y.toNat := by
    have hw : 0 < m.width := by omega
    have e1 : (p.y.toNat * m.width + p.x.toNat) / m.width = p.y.toNat := by
      rw [Nat.mul_comm p.y.toNat m.width, Nat.mul_add_div hw, Nat.div_eq_of_lt hpx,
        Nat.add_zero]
    have e2 : (q.y.toNat * m.width + q.x.toNat) / m.width = q.y.toNat := by
      rw [Nat.mul_comm q.y.toNat m.width, Nat.mul_add_div hw, Nat.div_eq_of_lt hqx,
        Nat.add_zero]
    rw [← e1, ← e2, h]
  have hxI : p.x = q.x := by
    rw [← Int.toNat_of_nonneg hp1, ← Int.toNat_of_nonneg hq1, hx]
  have hyI : p.y = q.y := by
    rw [← Int.toNat_of_nonneg hp3, ← Int.toNat_of_nonneg hq3, hy]
  cases p with
  | mk px py =>
    cases q with
    | mk qx qy =>
      simp only [Point.mk.injEq]
      exact ⟨hxI, hyI⟩

theorem Map.tileAt_setCreatureAt_same {m : Map} (hwf : m.WF) {p q : Point} (c : Option Nat)
    (hpq : m.idx p = m.idx q) :
    (m.setCreatureAt q c).tileAt p = ⟨(m.tileAt q).tiletype, c⟩ := by
  unfold Map.tileAt Map.setCreatureAt Map.idx
  simp only
  have hlt : m.idx q < m.tiles.length := by
    rw [hwf.len]; exact Map.idx_lt hwf.wpos hwf.hpos q
  have : m.idx p = m.idx q := hpq
  unfold Map.idx at this
  rw [this]
  exact getD_set_self _ _ _ _ hlt

theorem Map.tileAt_setCreatureAt_ne {m : Map} {p q : Point} (c : Option Nat)
    (hpq : m.idx p ≠ m.idx q) :
    (m.setCreatureAt q c).tileAt p = m.tileAt p := by
  unfold Map.tileAt Map.setCreatureAt Map.idx
  simp only
  have h : m.idx q ≠ m.idx p := fun h => hpq h.symm
  unfold Map.idx at h
  exact getD_set_ne _ _ _ h

theorem Map.setCreatureAt_wf {m : Map} (hwf : m.WF) (p : Point) (c : Option Nat) :
    (m.setCreatureAt p c).WF := by
  refine ⟨?_, hwf.wpos, hwf.hpos⟩
  unfold Map.setCreatureAt
  simp [List.length_set, hwf.len]

theorem Map.setTileTypeAt_wf {m : Map} (hwf : m.WF) (p : Point) (t : TileType) :
    (m.setTileTypeAt p t).WF := by
  refine ⟨?_, hwf.wpos, hwf.hpos⟩
  unfold Map.setTileTypeAt
  simp [List.length_set, hwf.len]

/-! ### Store access lemmas -/

@[simp]
theorem GameState.setCr_map (s : GameState) (id : Nat) (c : Option Creature) :
    (s.setCr id c).map = s.map := rfl

@[simp]
theorem GameState.setCr_creatures (s : GameState) (id : Nat) (c : Option Creature) :
    (s.setCr id c).creatures = s.creatures := rfl

@[simp]
theorem GameState.setCr_player (s : GameState) (id : Nat) (c : Option Creature) :
    (s.setCr id c).player = s.player := rfl

theorem GameState.lt_of_upgrade_some {s : GameState} {id : Nat} {cr : Creature}
    (h : s.upgrade id = some cr) : id < s.store.length :=
  lt_length_of_getD_some h

@[simp]
theorem GameState.setCr_store_length (s : GameState) (id : Nat) (c : Option Creature) :
    (s.setCr id c).store.length = s.store.length := by
  simp [GameState.setCr]

theorem GameState.upgrade_setCr_self {s : GameState} {id : Nat} (c : Option Creature)
    (h : id < s.store.length) : (s.setCr id c).upgrade id = c :=
  getD_set_self _ _ _ _ h

theorem GameState.upgrade_setCr_ne {s : GameState} {id j : Nat} (c : Option Creature)
    (h : id ≠ j) : (s.setCr id c).upgrade j = s.upgrade j :=
  getD_set_ne _ _ _ h

/-! ### The simulation invariant -/

theorem GameState.Inv.occupancyOk {s : GameState} (h : s.Inv) : s.tileOccupancyOk := by
  obtain ⟨hwf, hA, hB⟩ := h
  refine ⟨hB, ?_⟩
  intro p q hp hq id htp htq
  obtain ⟨cr, hcr, hcp⟩ := hB p hp id htp
  obtain ⟨cr2, hcr2, hcp2⟩ := hB q hq id htq
  rw [hcr] at hcr2
  cases hcr2
  rw [← hcp, ← hcp2]

theorem GameState.Inv.setCr_samePos {s : GameState} {id : Nat} {cr cr2 : Creature}
    (h : s.Inv) (hid : s.upgrade id = some cr) (hpos : cr2.pos.p = cr.pos.p) :
    (s.setCr id (some cr2)).Inv := by
  obtain ⟨hwf, hA, hB⟩ := h
  have hlt := GameState.lt_of_upgrade_some hid
  refine ⟨hwf, ?_, ?_⟩
  · intro j cj hj
    by_cases hji : j = id
    · subst hji
      rw [GameState.upgrade_setCr_self _ hlt] at hj
      cases hj
      rw [GameState.setCr_map, hpos]
      exact hA j cr hid
    · rw [GameState.upgrade_setCr_ne _ (fun hh => hji hh.symm)] at hj
      exact hA j cj hj
  · intro p hp j htj
    rw [GameState.setCr_map] at htj hp
    by_cases hji : j = id
    · subst hji
      obtain ⟨c0, hc0, hcp0⟩ := hB p hp j htj
      rw [hid] at hc0
      cases hc0
      exact ⟨cr2, GameState.upgrade_setCr_self _ hlt, by rw [hpos, hcp0]⟩
    · obtain ⟨c0, hc0, hcp0⟩ := hB p hp j htj
      exact ⟨c0, by rw [GameState.upgrade_setCr_ne _ (fun hh => hji hh.symm)]; exact hc0, hcp0⟩

/-- Clearing a tile's owning reference destroys the occupant: both the
tile reference and the arena slot go away (melee death). -/
theorem GameState.Inv.killAt {s : GameState} {tp : Point} {tid : Nat}
    (h : s.Inv) (hrange : s.map.inRange tp)
    (htile : (s.map.tileAt tp).creature = some tid) :
    (({ s with map := s.map.setCreatureAt tp none }).setCr tid none).Inv := by
  obtain ⟨hwf, hA, hB⟩ := h
  obtain ⟨crT, hcrT, hcrTp⟩ := hB tp hrange tid htile
  have hltT := GameState.lt_of_upgrade_some hcrT
  have hup : ∀ j, j ≠ tid →
      (({ s with map := s.map.setCreatureAt tp none }).setCr tid none).upgrade j
        = s.upgrade j := by
    intro j hj
    exact GameState.upgrade_setCr_ne _ (fun hh => hj hh.symm)
  have hupT : (({ s with map := s.map.setCreatureAt tp none }).setCr tid none).upgrade tid
      = none :=
    GameState.upgrade_setCr_self _ (by simpa using hltT)
  refine ⟨Map.setCreatureAt_wf hwf tp none, ?_, ?_⟩
  · intro j cj hj
    by_cases hjt : j = tid
    · subst hjt
      rw [hupT] at hj
      exact Option.noConfusion hj
    · rw [hup j hjt] at hj
      obtain ⟨hin, htl⟩ := hA j cj hj
      have hne : s.map.idx cj.pos.p ≠ s.map.idx tp := by
        intro he
        have hpe := Map.idx_inj hin hrange he
        rw [hpe, htile] at htl
        exact hjt (Option.some.inj htl).symm
      refine ⟨hin, ?_⟩
      show ((s.map.setCreatureAt tp none).tileAt cj.pos.p).creature = some j
      rw [Map.tileAt_setCreatureAt_ne none hne]
      exact htl
  · intro p hp j htj
    have hp' : s.map.inRange p := hp
    by_cases hpt : s.map.idx p = s.map.idx tp
    · exfalso
      have htj' : ((s.map.setCreatureAt tp none).tileAt p).creature = some j := htj
      rw [Map.tileAt_setCreatureAt_same hwf none hpt] at htj'
      exact Option.noConfusion htj'
    · have htj' : ((s.map.setCreatureAt tp none).tileAt p).creature = some j := htj
      rw [Map.tileAt_setCreatureAt_ne none hpt] at htj'
      obtain ⟨cj, hcj, hcjp⟩ := hB p hp' j htj'
      by_cases hjt : j = tid
      · exfalso
        subst hjt
        rw [hcrT] at hcj
        have : crT = cj := Option.some.inj hcj
        rw [← this] at hcjp
        exact hpt (by rw [← hcjp, hcrTp])
      · refine ⟨cj, ?_, hcjp⟩
        rw [hup j hjt]
        exact hcj

/-- Core of the relocation branch: transferring the owning reference
from the source tile to an empty, in-range destination tile and
updating the stored position preserves the invariant. -/
theorem GameState.Inv.moveCore {s : GameState} {id : Nat} {cr : Creature} {pos : Position}
    (h : s.Inv) (hup : s.upgrade id = some cr) (hpos : s.map.inRange pos.p)
    (hne : pos.p ≠ cr.pos.p) (hocc : (s.map.tileAt pos.p).creature = none) :
    (({ s with
        map :=
          (s.map.setCreatureAt pos.p ((s.map.tileAt cr.pos.p).creature)).setCreatureAt
            cr.pos.p none }).setCr id
      (some (cr.pos_set
        ((s.map.setCreatureAt pos.p ((s.map.tileAt cr.pos.p).creature)).setCreatureAt
          cr.pos.p none) pos))).Inv := by
  obtain ⟨hwf, hA, hB⟩ := h
  obtain ⟨hinc, htc⟩ := hA id cr hup
  have hlt := GameState.lt_of_upgrade_some hup
  have hidx_ne : s.map.idx pos.p ≠ s.map.idx cr.pos.p := by
    intro he
    exact hne (Map.idx_inj hpos hinc he)
  rw [htc]
  set m1 := s.map.setCreatureAt pos.p (some id) with hm1
  have hwf1 : m1.WF := Map.setCreatureAt_wf hwf _ _
  set m2 := m1.setCreatureAt cr.pos.p none with hm2
  have hwf2 : m2.WF := Map.setCreatureAt_wf hwf1 _ _
  have t_dest : (m2.tileAt pos.p).creature = some id := by
    rw [hm2]
    have e1 : (m1.setCreatureAt cr.pos.p none).tileAt pos.p = m1.tileAt pos.p :=
      Map.tileAt_setCreatureAt_ne none hidx_ne
    rw [e1, hm1, Map.tileAt_setCreatureAt_same hwf (some id) rfl]
  have t_src : (m2.tileAt cr.pos.p).creature = none := by
    rw [hm2, Map.tileAt_setCreatureAt_same hwf1 none rfl]
  have t_other : ∀ q, s.map.idx q ≠ s.map.idx pos.p → s.map.idx q ≠ s.map.idx cr.pos.p →
      m2.tileAt q = s.map.tileAt q := by
    intro q h1 h2
    have e2 : m2.tileAt q = m1.tileAt q := Map.tileAt_setCreatureAt_ne none h2
    have e1 : m1.tileAt q = s.map.tileAt q := Map.tileAt_setCreatureAt_ne (some id) h1
    exact e2.trans e1
  have hupS : ∀ j, j ≠ id →
      (({ s with map := m2 }).setCr id (some (cr.pos_set m2 pos))).upgrade j
        = s.upgrade j := by
    intro j hj
    exact GameState.upgrade_setCr_ne _ (fun hh => hj hh.symm)
  have hupI : (({ s with map := m2 }).setCr id (some (cr.pos_set m2 pos))).upgrade id
      = some (cr.pos_set m2 pos) :=
    GameState.upgrade_setCr_self _ (by simpa using hlt)
  refine ⟨hwf2, ?_, ?_⟩
  · intro j cj hj
    by_cases hji : j = id
    · subst hji
      rw [hupI] at hj
      have hcj : cj = cr.pos_set m2 pos := Option.some.inj hj.symm
      subst hcj
      exact ⟨hpos, t_dest⟩
    · rw [hupS j hji] at hj
      obtain ⟨hin, htl⟩ := hA j cj hj
      refine ⟨hin, ?_⟩
      have h1 : s.map.idx cj.pos.p ≠ s.map.idx pos.p := by
        intro he
        have hpe := Map.idx_inj hin hpos he
        rw [hpe, hocc] at htl
        exact Option.noConfusion htl
      have h2 : s.map.idx cj.pos.p ≠ s.map.idx cr.pos.p := by
        intro he
        have hpe := Map.idx_inj hin hinc he
        rw [hpe, htc] at htl
        exact hji (Option.some.inj htl).symm
      show (m2.tileAt cj.pos.p).creature = some j
      rw [t_other _ h1 h2]
      exact htl
  · intro p hp j htj
    have hp' : s.map.inRange p := hp
    have htj' : (m2.tileAt p).creature = some j := htj
    by_cases h2 : s.map.idx p = s.map.idx cr.pos.p
    · exfalso
      have : (m2.tileAt p).creature = none := by
        rw [hm2, Map.tileAt_setCreatureAt_same hwf1 none h2]
      rw [this] at htj'
      exact Option.noConfusion htj'
    · by_cases h1 : s.map.idx p = s.map.idx pos.p
      · have hpe : p = pos.p := Map.idx_inj hp' hpos h1
        have : (m2.tileAt p).creature = some id := by rw [hpe]; exact t_dest
        rw [this] at htj'
        have hji : j = id := (Option.some.inj htj').symm
        subst hji
        refine ⟨cr.pos_set m2 pos, hupI, ?_⟩
        show pos.p = p
        rw [hpe]
      · rw [t_other _ h1 h2] at htj'
        obtain ⟨cj, hcj, hcjp⟩ := hB p hp' j htj'
        by_cases hji : j = id
        · exfalso
          subst hji
          rw [hup] at hcj
          have : cr = cj := Option.some.inj hcj
          rw [← this] at hcjp
          exact h2 (by rw [← hcjp])
        · refine ⟨cj, ?_, hcjp⟩
          rw [hupS j hji]
          exact hcj

/-- Any resolution of `move_creature_if_possible` with an in-range
target preserves the invariant. -/
theorem GameState.Inv.move {s : GameState} {id : Nat} {pos : Position}
    (h : s.Inv) (hpos : s.map.inRange pos.p) :
    (s.move_creature_if_possible id pos).Inv := by
  unfold GameState.move_creature_if_possible
  split
  · exact h
  · next cr hup =>
    split
    · next heq =>
      exact h.setCr_samePos hup (by simp only [Creature.pos_set]; exact heq)
    · next hne =>
      split
      · exact h
      · split
        · exact h
        · next hocc =>
          exact h.moveCore hup hpos hne hocc

/-- Every non-fatal resolution of `perform_action` preserves the
invariant. -/
theorem GameState.Inv.perform {s : GameState} {id : Nat} {a : Action} {s2 : GameState}
    (h : s.Inv) (hp : s.perform_action id a = some s2) : s2.Inv := by
  have hwf := h.1
  unfold GameState.perform_action at hp
  split at hp
  · cases hp
    exact h
  · next cr0 hup =>
    have h1 : (s.setCr id (some (cr0.pos_prev_set s.map cr0.pos))).Inv :=
      h.setCr_samePos hup rfl
    have hup1 : (s.setCr id (some (cr0.pos_prev_set s.map cr0.pos))).upgrade id
        = some (cr0.pos_prev_set s.map cr0.pos) :=
      GameState.upgrade_setCr_self _ (GameState.lt_of_upgrade_some hup)
    split at hp
    · exact Option.noConfusion hp
    · exact Option.noConfusion hp
    · next d =>
      cases hp
      exact h1.move (Map.wrap_inRange hwf.wpos hwf.hpos _)
    · next d =>
      cases hp
      exact h1.move (Map.wrap_inRange hwf.wpos hwf.hpos _)
    · next d hfwd hbwd =>
      cases hp
      exact h1.move (Map.wrap_inRange hwf.wpos hwf.hpos _)
    · next d =>
      simp only [] at hp
      split at hp
      · cases hp
        exact h1
      · next tid htile =>
        split at hp
        · cases hp
          exact h1
        · next tcr htcr =>
          by_cases hti : tid = id
          · subst hti
            have htcrv : tcr = cr0.pos_prev_set s.map cr0.pos := by
              have hh := htcr
              rw [hup1] at hh
              exact (Option.some.inj hh).symm
            subst htcrv
            have h2 : ((s.setCr tid (some (cr0.pos_prev_set s.map cr0.pos))).setCr tid
                (some ((cr0.pos_prev_set s.map cr0.pos).attacked_by
                  (cr0.pos_prev_set s.map cr0.pos)))).Inv :=
              h1.setCr_samePos hup1 rfl
            have hup2 : ((s.setCr tid (some (cr0.pos_prev_set s.map cr0.pos))).setCr tid
                (some ((cr0.pos_prev_set s.map cr0.pos).attacked_by
                  (cr0.pos_prev_set s.map cr0.pos)))).upgrade tid
                = some ((cr0.pos_prev_set s.map cr0.pos).attacked_by
                  (cr0.pos_prev_set s.map cr0.pos)) :=
              GameState.upgrade_setCr_self _
                (by simpa using GameState.lt_of_upgrade_some hup)
            have h3 : (((s.setCr tid (some (cr0.pos_prev_set s.map cr0.pos))).setCr tid
                (some ((cr0.pos_prev_set s.map cr0.pos).attacked_by
                  (cr0.pos_prev_set s.map cr0.pos)))).setCr tid
                (some ((cr0.pos_prev_set s.map cr0.pos).attacked
                  ((cr0.pos_prev_set s.map cr0.pos).attacked_by
                    (cr0.pos_prev_set s.map cr0.pos))))).Inv :=
              h2.setCr_samePos hup2 rfl
            split at hp
            · cases hp
              exact h3
            · cases hp
              exact h3.killAt (Map.wrap_inRange hwf.wpos hwf.hpos _) htile
          · have h2 : ((s.setCr id (some (cr0.pos_prev_set s.map cr0.pos))).setCr tid
                (some (tcr.attacked_by (cr0.pos_prev_set s.map cr0.pos)))).Inv :=
              h1.setCr_samePos htcr rfl
            have hup2 : ((s.setCr id (some (cr0.pos_prev_set s.map cr0.pos))).setCr tid
                (some (tcr.attacked_by (cr0.pos_prev_set s.map cr0.pos)))).upgrade id
                = some (cr0.pos_prev_set s.map cr0.pos) := by
              rw [GameState.upgrade_setCr_ne _ hti]
              exact hup1
            have h3 : (((s.setCr id (some (cr0.pos_prev_set s.map cr0.pos))).setCr tid
                (some (tcr.attacked_by (cr0.pos_prev_set s.map cr0.pos)))).setCr id
                (some ((cr0.pos_prev_set s.map cr0.pos).attacked
                  (tcr.attacked_by (cr0.pos_prev_set s.map cr0.pos))))).Inv :=
              h2.setCr_samePos hup2 rfl
            split at hp
            · cases hp
              exact h3
            · cases hp
              exact h3.killAt (Map.wrap_inRange hwf.wpos hwf.hpos _) htile
    · cases hp
      exact h1
    · cases hp
      exact h1

/-- Every completed tick pass preserves the invariant. -/
theorem GameState.Inv.tickLoopInv {decide : Creature → Option Action} :
    ∀ (l : List Nat) (s : GameState) (tr0 : List Nat) (s2 : GameState) (tr : List Nat),
      s.Inv → GameState.tickLoop decide l (s, tr0) = some (s2, tr) → s2.Inv := by
  intro l
  induction l with
  | nil =>
    intro s tr0 s2 tr h hp
    unfold GameState.tickLoop at hp
    cases hp
    exact h
  | cons id rest ih =>
    intro s tr0 s2 tr h hp
    unfold GameState.tickLoop at hp
    split at hp
    · exact ih _ _ _ _ h hp
    · next cr0 hup =>
      split at hp
      · exact Option.noConfusion hp
      · have hcrpos : (if cr0.needs_action = true then cr0.update_los s.map else cr0).pos.p
            = cr0.pos.p := by
          split
          · rfl
          · rfl
        have h1 : (s.setCr id
            (some (if cr0.needs_action = true then cr0.update_los s.map else cr0))).Inv :=
          h.setCr_samePos hup hcrpos
        simp only [] at hp
        split at hp
        · exact ih _ _ _ _ h1 hp
        · next a hdec =>
          split at hp
          · exact Option.noConfusion hp
          · next s4 hperf =>
            have h2 : s4.Inv := h1.perform hperf
            split at hp
            · exact ih _ _ _ _ h2 hp
            · next cr2 hup2 =>
              have h3 : (s4.setCr id (some cr2.action_done)).Inv :=
                h2.setCr_samePos hup2 rfl
              exact ih _ _ _ _ h3 hp

/-- A completed tick preserves the invariant (the prune touches only
the registry, which the invariant does not mention). -/
theorem GameState.Inv.tickInv {decide : Creature → Option Action} {s s2 : GameState}
    (h : s.Inv) (hp : s.tick decide = some s2) : s2.Inv := by
  unfold GameState.tick GameState.tickAux at hp
  cases haux : GameState.tickLoop decide s.creatures (s, []) with
  | none =>
    rw [haux] at hp
    exact Option.noConfusion hp
  | some acc =>
    rw [haux] at hp
    obtain ⟨sp, trp⟩ := acc
    have hsp : sp.Inv := GameState.Inv.tickLoopInv _ _ _ _ _ h haux
    cases hp
    exact hsp

/-- A spawn attempt preserves the invariant, provided the creature's
stored position is in range (all spawned creatures are constructed
with wrap-normalized positions). -/
theorem GameState.Inv.spawnInv {s : GameState} {cr : Creature}
    (h : s.Inv) (hr : s.map.inRange cr.pos.p) : ((s.spawn cr).2).Inv := by
  obtain ⟨hwf, hA, hB⟩ := h
  unfold GameState.spawn
  split
  · exact ⟨hwf, hA, hB⟩
  · next hpass =>
    simp only []
    cases hev : (s.map.tileAt cr.pos.p).creature with
    | none =>
      refine ⟨Map.setCreatureAt_wf hwf _ _, ?_, ?_⟩
      · intro j cj hj
        have hj' : (s.store ++ [some cr]).getD j none = some cj := hj
        by_cases hji : j = s.store.length
        · subst hji
          rw [getD_concat_self] at hj'
          have hcj : cr = cj := Option.some.inj hj'
          subst hcj
          refine ⟨hr, ?_⟩
          show ((s.map.setCreatureAt cr.pos.p (some s.store.length)).tileAt cr.pos.p).creature
            = some s.store.length
          rw [Map.tileAt_setCreatureAt_same hwf _ rfl]
        · have hjlt : j < s.store.length := by
            have hlen := lt_length_of_getD_some hj'
            rw [List.length_append] at hlen
            simp at hlen
            omega
          rw [getD_append_lt _ _ _ _ hjlt] at hj'
          obtain ⟨hin, htl⟩ := hA j cj hj'
          refine ⟨hin, ?_⟩
          have hne : s.map.idx cj.pos.p ≠ s.map.idx cr.pos.p := by
            intro he
            have hpe := Map.idx_inj hin hr he
            rw [hpe, hev] at htl
            exact Option.noConfusion htl
          show ((s.map.setCreatureAt cr.pos.p (some s.store.length)).tileAt cj.pos.p).creature
            = some j
          rw [Map.tileAt_setCreatureAt_ne _ hne]
          exact htl
      · intro p hp j htj
        have hp' : s.map.inRange p := hp
        have htj' : ((s.map.setCreatureAt cr.pos.p (some s.store.length)).tileAt p).creature
            = some j := htj
        by_cases hpc : s.map.idx p = s.map.idx cr.pos.p
        · rw [Map.tileAt_setCreatureAt_same hwf _ hpc] at htj'
          have hj : j = s.store.length := (Option.some.inj htj').symm
          subst hj
          refine ⟨cr, ?_, ?_⟩
          · show (s.store ++ [some cr]).getD s.store.length none = some cr
            exact getD_concat_self _ _ _
          · exact (Map.idx_inj hp' hr hpc).symm
        · rw [Map.tileAt_setCreatureAt_ne _ hpc] at htj'
          obtain ⟨cj, hcj, hcjp⟩ := hB p hp' j htj'
          have hjlt := GameState.lt_of_upgrade_some hcj
          refine ⟨cj, ?_, hcjp⟩
          show (s.store ++ [some cr]).getD j none = some cj
          rw [getD_append_lt _ _ _ _ hjlt]
          exact hcj
    | some old =>
      obtain ⟨crOld, hcrOld, hcrOldp⟩ := hB cr.pos.p hr old hev
      have holdlt := GameState.lt_of_upgrade_some hcrOld
      have holdne : old ≠ s.store.length := by omega
      refine ⟨Map.setCreatureAt_wf hwf _ _, ?_, ?_⟩
      · intro j cj hj
        have hj' : ((s.store ++ [some cr]).set old none).getD j none = some cj := hj
        by_cases hjo : j = old
        · exfalso
          subst hjo
          rw [getD_set_self _ _ _ _ (by rw [List.length_append]; omega)] at hj'
          exact Option.noConfusion hj'
        · rw [getD_set_ne _ _ _ (fun hh => hjo hh.symm)] at hj'
          by_cases hji : j = s.store.length
          · subst hji
            rw [getD_concat_self] at hj'
            have hcj : cr = cj := Option.some.inj hj'
            subst hcj
            refine ⟨hr, ?_⟩
            show ((s.map.setCreatureAt cr.pos.p (some s.store.length)).tileAt cr.pos.p).creature
              = some s.store.length
            rw [Map.tileAt_setCreatureAt_same hwf _ rfl]
          · have hjlt : j < s.store.length := by
              have hlen := lt_length_of_getD_some hj'
              rw [List.length_append] at hlen
              simp at hlen
              omega
            rw [getD_append_lt _ _ _ _ hjlt] at hj'
            obtain ⟨hin, htl⟩ := hA j cj hj'
            refine ⟨hin, ?_⟩
            have hne : s.map.idx cj.pos.p ≠ s.map.idx cr.pos.p := by
              intro he
              have hpe := Map.idx_inj hin hr he
              rw [hpe, hev] at htl
              exact hjo (Option.some.inj htl).symm
            show ((s.map.setCreatureAt cr.pos.p (some s.store.length)).tileAt cj.pos.p).creature
              = some j
            rw [Map.tileAt_setCreatureAt_ne _ hne]
            exact htl
      · intro p hp j htj
        have hp' : s.map.inRange p := hp
        have htj' : ((s.map.setCreatureAt cr.pos.p (some s.store.length)).tileAt p).creature
            = some j := htj
        by_cases hpc : s.map.idx p = s.map.idx cr.pos.p
        · rw [Map.tileAt_setCreatureAt_same hwf _ hpc] at htj'
          have hj : j = s.store.length := (Option.some.inj htj').symm
          subst hj
          refine ⟨cr, ?_, ?_⟩
          · show ((s.store ++ [some cr]).set old none).getD s.store.length none = some cr
            rw [getD_set_ne _ _ _ holdne]
            exact getD_concat_self _ _ _
          · exact (Map.idx_inj hp' hr hpc).symm
        · rw [Map.tileAt_setCreatureAt_ne _ hpc] at htj'
          obtain ⟨cj, hcj, hcjp⟩ := hB p hp' j htj'
          have hjlt := GameState.lt_of_upgrade_some hcj
          have hjo : j ≠ old := by
            intro hh
            subst hh
            rw [hcrOld] at hcj
            have : crOld = cj := Option.some.inj hcj
            rw [← this] at hcjp
            exact hpc (by rw [← hcjp, hcrOldp])
          refine ⟨cj, ?_, hcjp⟩
          show ((s.store ++ [some cr]).set old none).getD j none = some cj
          rw [getD_set_ne _ _ _ (fun hh => hjo hh.symm), getD_append_lt _ _ _ _ hjlt]
          exact hcj

/-- The executable invariant check implies the invariant. -/
theorem GameState.invB_imp_Inv {s : GameState} (h : s.invB = true) : s.Inv := by
  unfold GameState.invB at h
  simp only [Bool.and_eq_true, List.all_eq_true, decide_eq_true_eq, List.mem_range] at h
  obtain ⟨⟨⟨⟨hlen, hw⟩, hh⟩, hA⟩, hB⟩ := h
  refine ⟨⟨hlen, hw, hh⟩, ?_, ?_⟩
  · intro id cr hcr
    have hid : id < s.store.length := lt_length_of_getD_some hcr
    have hx := hA id hid
    rw [show s.store.getD id none = some cr from hcr] at hx
    have hx2 : (decide (s.map.inRange cr.pos.p)
        && decide ((s.map.tileAt cr.pos.p).creature = some id)) = true := hx
    simp only [Bool.and_eq_true, decide_eq_true_eq] at hx2
    exact hx2
  · intro p hp id htp
    obtain ⟨h1, h2, h3, h4⟩ := hp
    have hxy : (⟨(p.x.toNat : Int), (p.y.toNat : Int)⟩ : Point) = p := by
      cases p with
      | mk px py =>
        simp only [Point.mk.injEq]
        constructor
        · exact Int.toNat_of_nonneg h1
        · exact Int.toNat_of_nonneg h3
    have hx := hB p.y.toNat (by omega) p.x.toNat (by omega)
    rw [hxy, htp] at hx
    have hx2 : (match s.store.getD id none with
        | none => false
        | some cr => decide (cr.pos.p = p)) = true := hx
    cases hcr : s.store.getD id none with
    | none =>
      rw [hcr] at hx2
      exact Bool.noConfusion hx2
    | some cr =>
      rw [hcr] at hx2
      simp only [decide_eq_true_eq] at hx2
      exact ⟨cr, hcr, hx2⟩

/-! ### Claim C1 -/

/-- C1: from any state satisfying the simulation invariant, after
every completed tick, after every resolved action (move, run, turn,
melee, use, wait) and after every spawn of a creature with a
wrap-normalized position, every occupied tile's occupant records
exactly that tile's coordinate, and no two tiles reference the same
actor. -/
theorem c1_tile_occupancy_invariant (s : GameState) (h : s.Inv) :
    (∀ dec s2, s.tick dec = some s2 → s2.tileOccupancyOk) ∧
    (∀ id a s2, s.perform_action id a = some s2 → s2.tileOccupancyOk) ∧
    (∀ cr, s.map.inRange cr.pos.p → ((s.spawn cr).2).tileOccupancyOk) := by
  refine ⟨?_, ?_, ?_⟩
  · intro dec s2 hp
    exact (h.tickInv hp).occupancyOk
  · intro id a s2 hp
    exact (h.perform hp).occupancyOk
  · intro cr hr
    exact (h.spawnInv hr).occupancyOk

/-- Witness for C1: the invariant hypothesis is discharged on the
concrete state `stateW1` and the guarantees follow there. -/
theorem c1_tile_occupancy_invariant_witness :
    stateW1.Inv ∧
    ((∀ dec s2, stateW1.tick dec = some s2 → s2.tileOccupancyOk) ∧
     (∀ id a s2, stateW1.perform_action id a = some s2 → s2.tileOccupancyOk) ∧
     (∀ cr, stateW1.map.inRange cr.pos.p → ((stateW1.spawn cr).2).tileOccupancyOk)) :=
  ⟨GameState.invB_imp_Inv (by decide),
    c1_tile_occupancy_invariant stateW1 (GameState.invB_imp_Inv (by decide))⟩

/-! ### Claim C2 -/

theorem posOf_setCr_samePos {s : GameState} {id : Nat} {cr cr2 : Creature}
    (hup : s.upgrade id = some cr) (hpos : cr2.pos = cr.pos) :
    ∀ j, (s.setCr id (some cr2)).posOf j = s.posOf j := by
  intro j
  unfold GameState.posOf
  by_cases hj : j = id
  · subst hj
    rw [GameState.upgrade_setCr_self _ (GameState.lt_of_upgrade_some hup), hup]
    simp [hpos]
  · rw [GameState.upgrade_setCr_ne _ (fun hh => hj hh.symm)]

/-- A `move_creature_if_possible` call whose target tile is impassable
or occupied (and whose facing matches the mover's, as for Move/Run)
leaves grid, every recorded position, registry and player unchanged. -/
theorem move_blocked_noop {s : GameState} {id : Nat} {cr : Creature} (pos : Position)
    (hup : s.upgrade id = some cr) (hdir : pos.dir = cr.pos.dir)
    (hblock : ((s.map.tileAt pos.p).tiletype.is_passable = false) ∨
      ((s.map.tileAt pos.p).creature.isSome = true)) :
    (s.move_creature_if_possible id pos).map = s.map ∧
    (∀ j, (s.move_creature_if_possible id pos).posOf j = s.posOf j) ∧
    (s.move_creature_if_possible id pos).creatures = s.creatures ∧
    (s.move_creature_if_possible id pos).player = s.player := by
  have hv : (s.move_creature_if_possible id pos = s)
      ∨ (s.move_creature_if_possible id pos = s.setCr id (some (cr.pos_set s.map pos))
          ∧ pos.p = cr.pos.p) := by
    unfold GameState.move_creature_if_possible
    split
    · next hnone =>
      rw [hup] at hnone
      exact Option.noConfusion hnone
    · next cr2 hsome =>
      rw [hup] at hsome
      have hc2 : cr = cr2 := Option.some.inj hsome
      subst hc2
      split
      · next h1 => exact Or.inr ⟨rfl, h1⟩
      · next h1 =>
        split
        · next hpass => exact Or.inl rfl
        · next hpass =>
          split
          · next o hocc => exact Or.inl rfl
          · next hocc =>
            exfalso
            rcases hblock with hb | hb
            · exact hpass hb
            · rw [hocc] at hb
              exact Bool.noConfusion hb
  rcases hv with he | ⟨he, h1⟩
  · rw [he]
    exact ⟨rfl, fun j => rfl, rfl, rfl⟩
  · have hpe : pos = cr.pos := by
      obtain ⟨pp, pd⟩ := pos
      have h1' : pp = cr.pos.p := h1
      have hdir' : pd = cr.pos.dir := hdir
      subst h1'
      subst hdir'
      rfl
    rw [he]
    refine ⟨rfl, ?_, rfl, rfl⟩
    exact posOf_setCr_samePos hup hpe

/-- C2: resolving a Move or Run action whose destination tile is
impassable or already occupied consumes the action with no effect:
the grid is byte-for-byte unchanged and every handle's recorded
position (in particular both parties') is unchanged, as are registry
and player. -/
theorem c2_blocked_move_noop (s : GameState) (id : Nat) (cr : Creature) (d : Direction)
    (a : Action) (hup : s.upgrade id = some cr)
    (ha : a = Action.Move d ∨ a = Action.Run d)
    (hblock : ((s.map.tileAt (s.map.wrap (cr.pos.p.step
        (dirAdd cr.pos.dir d)))).tiletype.is_passable = false) ∨
      ((s.map.tileAt (s.map.wrap (cr.pos.p.step
        (dirAdd cr.pos.dir d)))).creature.isSome = true)) :
    ∃ s2, s.perform_action id a = some s2 ∧
      s2.map = s.map ∧
      (∀ j, s2.posOf j = s.posOf j) ∧
      s2.creatures = s.creatures ∧
      s2.player = s.player := by
  have hup1 : (s.setCr id (some (cr.pos_prev_set s.map cr.pos))).upgrade id
      = some (cr.pos_prev_set s.map cr.pos) :=
    GameState.upgrade_setCr_self _ (GameState.lt_of_upgrade_some hup)
  have hmv := move_blocked_noop
      ⟨s.map.wrap (cr.pos.p.step (dirAdd cr.pos.dir d)), cr.pos.dir⟩ hup1 rfl hblock
  refine ⟨(s.setCr id (some (cr.pos_prev_set s.map cr.pos))).move_creature_if_possible id
      ⟨s.map.wrap (cr.pos.p.step (dirAdd cr.pos.dir d)), cr.pos.dir⟩, ?_, hmv.1, ?_,
      hmv.2.2.1, hmv.2.2.2⟩
  · rcases ha with rfl | rfl
    · show s.perform_action id (Action.Move d) = _
      unfold GameState.perform_action
      rw [hup]
      rfl
    · show s.perform_action id (Action.Run d) = _
      unfold GameState.perform_action
      rw [hup]
      rfl
  · have hpp : ∀ j, (s.setCr id (some (cr.pos_prev_set s.map cr.pos))).posOf j = s.posOf j :=
      posOf_setCr_samePos hup rfl
    intro j
    rw [hmv.2.1 j]
    exact hpp j

/-- Witness for C2: on `stateW2` the creature at the origin faces a
wall tile; the move is consumed with no effect. -/
theorem c2_blocked_move_noop_witness :
    ∃ s2, stateW2.perform_action 0 (Action.Move (Direction.Hex 0)) = some s2 ∧
      s2.map = stateW2.map ∧
      (∀ j, s2.posOf j = stateW2.posOf j) ∧
      s2.creatures = stateW2.creatures ∧
      s2.player = stateW2.player :=
  c2_blocked_move_noop stateW2 0 (mkCr 0 0 0 10 3 false .Human) (Direction.Hex 0)
    (Action.Move (Direction.Hex 0)) (by decide) (Or.inl rfl) (by decide)

/-! ### Projection lemmas for the creature hooks -/

@[simp]
theorem Creature.pos_prev_set_pos (c : Creature) (m : Map) (p : Position) :
    (c.pos_prev_set m p).pos = c.pos := rfl

@[simp]
theorem Creature.pos_set_pos (c : Creature) (m : Map) (p : Position) :
    (c.pos_set m p).pos = p := rfl

@[simp]
theorem Creature.attacked_by_pos (c a : Creature) : (c.attacked_by a).pos = c.pos := rfl

@[simp]
theorem Creature.attacked_pos (c t : Creature) : (c.attacked t).pos = c.pos := rfl

/-! ### Claim C3 -/

/-- C3: Melee targets the tile at wrap(point + rotate(facing,
direction)).  When that tile has an occupant, the mutual attack is
resolved as target-attacked-by-attacker and then
attacker-counterattacked-by-the-struck-target; if the target is then
dead, its owning tile reference and its allocation are cleared within
the same action; if it survives, the grid is untouched.  Registry and
player are never touched by the action itself. -/
theorem c3_melee_resolution (s : GameState) (id tid : Nat) (cr tcr : Creature)
    (d : Direction) (hwf : s.map.WF)
    (hup : s.upgrade id = some cr)
    (htile : (s.map.tileAt (s.map.wrap (cr.pos.p.step (dirAdd cr.pos.dir d)))).creature
      = some tid)
    (htid : tid ≠ id)
    (htcr : s.upgrade tid = some tcr) :
    ∃ s2, s.perform_action id (Action.Melee d) = some s2 ∧
      s2.upgrade id = some ((cr.pos_prev_set s.map cr.pos).attacked
        (tcr.attacked_by (cr.pos_prev_set s.map cr.pos))) ∧
      ((tcr.attacked_by (cr.pos_prev_set s.map cr.pos)).is_alive = true →
        s2.map = s.map ∧
        s2.upgrade tid = some (tcr.attacked_by (cr.pos_prev_set s.map cr.pos))) ∧
      ((tcr.attacked_by (cr.pos_prev_set s.map cr.pos)).is_alive = false →
        (s2.map.tileAt (s.map.wrap (cr.pos.p.step (dirAdd cr.pos.dir d)))).creature = none ∧
        s2.upgrade tid = none) ∧
      s2.creatures = s.creatures ∧
      s2.player = s.player := by
  have hlt : id < s.store.length := GameState.lt_of_upgrade_some hup
  have hltT : tid < s.store.length := GameState.lt_of_upgrade_some htcr
  have hup1 : (s.setCr id (some (cr.pos_prev_set s.map cr.pos))).upgrade tid = some tcr := by
    rw [GameState.upgrade_setCr_ne _ (fun hh => htid hh.symm)]
    exact htcr
  have htile' : ((s.setCr id (some (cr.pos_prev_set s.map cr.pos))).map.tileAt
      ((s.setCr id (some (cr.pos_prev_set s.map cr.pos))).map.wrap
        ((cr.pos_prev_set s.map cr.pos).pos.p.step
          (dirAdd (cr.pos_prev_set s.map cr.pos).pos.dir d)))).creature = some tid := htile
  by_cases halive : (tcr.attacked_by (cr.pos_prev_set s.map cr.pos)).is_alive = true
  · refine ⟨((s.setCr id (some (cr.pos_prev_set s.map cr.pos))).setCr tid
        (some (tcr.attacked_by (cr.pos_prev_set s.map cr.pos)))).setCr id
        (some ((cr.pos_prev_set s.map cr.pos).attacked
          (tcr.attacked_by (cr.pos_prev_set s.map cr.pos)))), ?_, ?_, ?_, ?_, rfl, rfl⟩
    · unfold GameState.perform_action
      rw [hup]
      simp only []
      rw [htile']
      simp only []
      rw [hup1]
      simp only []
      rw [if_pos halive]
    · exact GameState.upgrade_setCr_self _ (by simpa using hlt)
    · intro h
      refine ⟨rfl, ?_⟩
      have e1 : (((s.setCr id (some (cr.pos_prev_set s.map cr.pos))).setCr tid
          (some (tcr.attacked_by (cr.pos_prev_set s.map cr.pos)))).setCr id
          (some ((cr.pos_prev_set s.map cr.pos).attacked
            (tcr.attacked_by (cr.pos_prev_set s.map cr.pos))))).upgrade tid
          = ((s.setCr id (some (cr.pos_prev_set s.map cr.pos))).setCr tid
          (some (tcr.attacked_by (cr.pos_prev_set s.map cr.pos)))).upgrade tid :=
        GameState.upgrade_setCr_ne _ (fun hh => htid hh.symm)
      have e2 : ((s.setCr id (some (cr.pos_prev_set s.map cr.pos))).setCr tid
          (some (tcr.attacked_by (cr.pos_prev_set s.map cr.pos)))).upgrade tid
          = some (tcr.attacked_by (cr.pos_prev_set s.map cr.pos)) :=
        GameState.upgrade_setCr_self _ (by simpa using hltT)
      exact e1.trans e2
    · intro h
      rw [h] at halive
      exact Bool.noConfusion halive
  · refine ⟨({ (((s.setCr id (some (cr.pos_prev_set s.map cr.pos))).setCr tid
          (some (tcr.attacked_by (cr.pos_prev_set s.map cr.pos)))).setCr id
          (some ((cr.pos_prev_set s.map cr.pos).attacked
            (tcr.attacked_by (cr.pos_prev_set s.map cr.pos))))) with
        map := s.map.setCreatureAt
          (s.map.wrap (cr.pos.p.step (dirAdd cr.pos.dir d))) none }).setCr tid none,
      ?_, ?_, ?_, ?_, rfl, rfl⟩
    · unfold GameState.perform_action
      rw [hup]
      simp only []
      rw [htile']
      simp only []
      rw [hup1]
      simp only []
      rw [if_neg halive]
      rfl
    · have e0 : (({ (((s.setCr id (some (cr.pos_prev_set s.map cr.pos))).setCr tid
            (some (tcr.attacked_by (cr.pos_prev_set s.map cr.pos)))).setCr id
            (some ((cr.pos_prev_set s.map cr.pos).attacked
              (tcr.attacked_by (cr.pos_prev_set s.map cr.pos))))) with
          map := s.map.setCreatureAt
            (s.map.wrap (cr.pos.p.step (dirAdd cr.pos.dir d))) none }).setCr tid none).upgrade id
          = (((s.setCr id (some (cr.pos_prev_set s.map cr.pos))).setCr tid
            (some (tcr.attacked_by (cr.pos_prev_set s.map cr.pos)))).setCr id
            (some ((cr.pos_prev_set s.map cr.pos).attacked
              (tcr.attacked_by (cr.pos_prev_set s.map cr.pos))))).upgrade id :=
        GameState.upgrade_setCr_ne _ htid
      have e1 : (((s.setCr id (some (cr.pos_prev_set s.map cr.pos))).setCr tid
          (some (tcr.attacked_by (cr.pos_prev_set s.map cr.pos)))).setCr id
          (some ((cr.pos_prev_set s.map cr.pos).attacked
            (tcr.attacked_by (cr.pos_prev_set s.map cr.pos))))).upgrade id
          = some ((cr.pos_prev_set s.map cr.pos).attacked
            (tcr.attacked_by (cr.pos_prev_set s.map cr.pos))) :=
        GameState.upgrade_setCr_self _ (by simpa using hlt)
      exact e0.trans e1
    · intro h
      exact absurd h halive
    · intro h
      constructor
      · show ((s.map.setCreatureAt (s.map.wrap (cr.pos.p.step (dirAdd cr.pos.dir d)))
            none).tileAt (s.map.wrap (cr.pos.p.step (dirAdd cr.pos.dir d)))).creature = none
        rw [Map.tileAt_setCreatureAt_same hwf none rfl]
      · exact GameState.upgrade_setCr_self _ (by simpa using hltT)

/-- Witness for C3: on `stateW3` the attacker at the origin lands a
lethal blow on the creature one tile ahead. -/
theorem c3_melee_resolution_witness :
    ∃ s2, stateW3.perform_action 0 (Action.Melee (Direction.Hex 0)) = some s2 ∧
      s2.upgrade 0 = some (((mkCr 0 0 0 10 5 false .Human).pos_prev_set stateW3.map
        (mkCr 0 0 0 10 5 false .Human).pos).attacked
        ((mkCr 1 0 0 3 1 false .Scout).attacked_by
          ((mkCr 0 0 0 10 5 false .Human).pos_prev_set stateW3.map
            (mkCr 0 0 0 10 5 false .Human).pos))) ∧
      (((mkCr 1 0 0 3 1 false .Scout).attacked_by
          ((mkCr 0 0 0 10 5 false .Human).pos_prev_set stateW3.map
            (mkCr 0 0 0 10 5 false .Human).pos)).is_alive = true →
        s2.map = stateW3.map ∧
        s2.upgrade 1 = some ((mkCr 1 0 0 3 1 false .Scout).attacked_by
          ((mkCr 0 0 0 10 5 false .Human).pos_prev_set stateW3.map
            (mkCr 0 0 0 10 5 false .Human).pos))) ∧
      (((mkCr 1 0 0 3 1 false .Scout).attacked_by
          ((mkCr 0 0 0 10 5 false .Human).pos_prev_set stateW3.map
            (mkCr 0 0 0 10 5 false .Human).pos)).is_alive = false →
        (s2.map.tileAt (stateW3.map.wrap ((mkCr 0 0 0 10 5 false .Human).pos.p.step
          (dirAdd (mkCr 0 0 0 10 5 false .Human).pos.dir (Direction.Hex 0))))).creature
          = none ∧
        s2.upgrade 1 = none) ∧
      s2.creatures = stateW3.creatures ∧
      s2.player = stateW3.player :=
  c3_melee_resolution stateW3 0 1 (mkCr 0 0 0 10 5 false .Human)
    (mkCr 1 0 0 3 1 false .Scout) (Direction.Hex 0)
    ⟨by decide, by decide, by decide⟩ (by decide) (by decide) (by decide) (by decide)


/-! ### Claim C10 -/

/-- C10: in a melee exchange only the target's liveness is checked
afterward.  If the counter-attack leaves the attacker dead while the
target survives, the grid is completely untouched — in particular the
dead attacker remains its tile's owned occupant and stays allocated —
the registry is untouched by the action itself, and the prune of the
registry against the resulting store drops the attacker's handle while
the tile keeps owning the corpse. -/
theorem c10_dead_attacker_stays_on_tile (s : GameState) (id tid : Nat) (cr tcr : Creature)
    (d : Direction)
    (hup : s.upgrade id = some cr)
    (hown : (s.map.tileAt cr.pos.p).creature = some id)
    (htile : (s.map.tileAt (s.map.wrap (cr.pos.p.step (dirAdd cr.pos.dir d)))).creature
      = some tid)
    (htid : tid ≠ id)
    (htcr : s.upgrade tid = some tcr)
    (halive : (tcr.attacked_by (cr.pos_prev_set s.map cr.pos)).is_alive = true)
    (hdead : ((cr.pos_prev_set s.map cr.pos).attacked
      (tcr.attacked_by (cr.pos_prev_set s.map cr.pos))).is_alive = false) :
    ∃ s2, s.perform_action id (Action.Melee d) = some s2 ∧
      s2.map = s.map ∧
      (s2.map.tileAt cr.pos.p).creature = some id ∧
      s2.upgrade id = some ((cr.pos_prev_set s.map cr.pos).attacked
        (tcr.attacked_by (cr.pos_prev_set s.map cr.pos))) ∧
      s2.creatures = s.creatures ∧
      id ∉ pruneList s2.store s2.creatures := by
  have hlt : id < s.store.length := GameState.lt_of_upgrade_some hup
  have hltT : tid < s.store.length := GameState.lt_of_upgrade_some htcr
  have hup1 : (s.setCr id (some (cr.pos_prev_set s.map cr.pos))).upgrade tid = some tcr := by
    rw [GameState.upgrade_setCr_ne _ (fun hh => htid hh.symm)]
    exact htcr
  have htile' : ((s.setCr id (some (cr.pos_prev_set s.map cr.pos))).map.tileAt
      ((s.setCr id (some (cr.pos_prev_set s.map cr.pos))).map.wrap
        ((cr.pos_prev_set s.map cr.pos).pos.p.step
          (dirAdd (cr.pos_prev_set s.map cr.pos).pos.dir d)))).creature = some tid := htile
  have hupF : (((s.setCr id (some (cr.pos_prev_set s.map cr.pos))).setCr tid
      (some (tcr.attacked_by (cr.pos_prev_set s.map cr.pos)))).setCr id
      (some ((cr.pos_prev_set s.map cr.pos).attacked
        (tcr.attacked_by (cr.pos_prev_set s.map cr.pos))))).upgrade id
      = some ((cr.pos_prev_set s.map cr.pos).attacked
        (tcr.attacked_by (cr.pos_prev_set s.map cr.pos))) :=
    GameState.upgrade_setCr_self _ (by simpa using hlt)
  refine ⟨((s.setCr id (some (cr.pos_prev_set s.map cr.pos))).setCr tid
      (some (tcr.attacked_by (cr.pos_prev_set s.map cr.pos)))).setCr id
      (some ((cr.pos_prev_set s.map cr.pos).attacked
        (tcr.attacked_by (cr.pos_prev_set s.map cr.pos)))),
    ?_, rfl, hown, hupF, rfl, ?_⟩
  · unfold GameState.perform_action
    rw [hup]
    simp only []
    rw [htile']
    simp only []
    rw [hup1]
    simp only []
    rw [if_pos halive]
  · intro hmem
    rw [pruneList, List.mem_filter] at hmem
    have hl := hmem.2
    unfold liveInB at hl
    have hl2 : (match (((s.setCr id (some (cr.pos_prev_set s.map cr.pos))).setCr tid
        (some (tcr.attacked_by (cr.pos_prev_set s.map cr.pos)))).setCr id
        (some ((cr.pos_prev_set s.map cr.pos).attacked
          (tcr.attacked_by (cr.pos_prev_set s.map cr.pos))))).upgrade id with
      | some c => c.is_alive
      | none => false) = true := hl
    rw [hupF] at hl2
    have hl3 : ((cr.pos_prev_set s.map cr.pos).attacked
        (tcr.attacked_by (cr.pos_prev_set s.map cr.pos))).is_alive = true := hl2
    rw [hdead] at hl3
    exact Bool.noConfusion hl3

/-- Witness for C10: on `stateW10` the frail attacker at the origin is
lethally countered by the sturdy creature one tile ahead. -/
theorem c10_dead_attacker_stays_on_tile_witness :
    ∃ s2, stateW10.perform_action 0 (Action.Melee (Direction.Hex 0)) = some s2 ∧
      s2.map = stateW10.map ∧
      (s2.map.tileAt (mkCr 0 0 0 2 1 false .Human).pos.p).creature = some 0 ∧
      s2.upgrade 0 = some (((mkCr 0 0 0 2 1 false .Human).pos_prev_set stateW10.map
        (mkCr 0 0 0 2 1 false .Human).pos).attacked
        ((mkCr 1 0 0 10 5 false .Scout).attacked_by
          ((mkCr 0 0 0 2 1 false .Human).pos_prev_set stateW10.map
            (mkCr 0 0 0 2 1 false .Human).pos))) ∧
      s2.creatures = stateW10.creatures ∧
      0 ∉ pruneList s2.store s2.creatures :=
  c10_dead_attacker_stays_on_tile stateW10 0 1 (mkCr 0 0 0 2 1 false .Human)
    (mkCr 1 0 0 10 5 false .Scout) (Direction.Hex 0)
    (by decide) (by decide) (by decide) (by decide) (by decide) (by decide) (by decide)

/-! ### Claim C8 -/

/-- C8: with a live creature, `perform_action` is fatal exactly on a
Turn with a relative movement marker; every other outcome at this
layer — blocked moves, occupied destinations, Melee on any tile, Use
and Wait — resolves to a state and never halts or surfaces an error. -/
theorem c8_fatal_iff_turn_relative (s : GameState) (id : Nat) (cr : Creature) (a : Action)
    (hup : s.upgrade id = some cr) :
    s.perform_action id a = none ↔
      (a = Action.Turn Direction.Forward ∨ a = Action.Turn Direction.Backward) := by
  constructor
  · intro hnone
    unfold GameState.perform_action at hnone
    split at hnone
    · exact Option.noConfusion hnone
    · next cr0 hup0 =>
      split at hnone
      · exact Or.inl rfl
      · exact Or.inr rfl
      · exact Option.noConfusion hnone
      · exact Option.noConfusion hnone
      · exact Option.noConfusion hnone
      · simp only [] at hnone
        split at hnone
        · exact Option.noConfusion hnone
        · split at hnone
          · exact Option.noConfusion hnone
          · split at hnone
            · exact Option.noConfusion hnone
            · exact Option.noConfusion hnone
      · exact Option.noConfusion hnone
      · exact Option.noConfusion hnone
  · intro h
    rcases h with rfl | rfl
    · unfold GameState.perform_action
      rw [hup]
    · unfold GameState.perform_action
      rw [hup]

/-- Witness for C8 at a concrete state and the fatal action. -/
theorem c8_fatal_iff_turn_relative_witness :
    stateW2.perform_action 0 (Action.Turn Direction.Forward) = none ↔
      (Action.Turn Direction.Forward = Action.Turn Direction.Forward ∨
        Action.Turn Direction.Forward = Action.Turn Direction.Backward) :=
  c8_fatal_iff_turn_relative stateW2 0 (mkCr 0 0 0 10 3 false .Human)
    (Action.Turn Direction.Forward) (by decide)

/-! ### Claim C6 -/

/-- Occupant references on the grid point into the store. -/
theorem storeClosed_lt {s : GameState} (hcl : s.storeClosedB = true) (hwf : s.map.WF)
    {p : Point} {old : Nat} (h : (s.map.tileAt p).creature = some old) :
    old < s.store.length := by
  unfold GameState.storeClosedB at hcl
  rw [List.all_eq_true] at hcl
  have hlt : s.map.idx p < s.map.tiles.length := by
    rw [hwf.len]
    exact Map.idx_lt hwf.wpos hwf.hpos p
  have hmem : s.map.tiles[s.map.idx p] ∈ s.map.tiles := List.getElem_mem hlt
  have hval := hcl _ hmem
  have he : s.map.tileAt p = s.map.tiles[s.map.idx p] := by
    unfold Map.tileAt
    rw [List.getD_eq_getElem?_getD, List.getElem?_eq_getElem hlt]
    rfl
  rw [he] at h
  have hval1 : (match (s.map.tiles[s.map.idx p]).creature with
    | none => true
    | some id => decide (id < s.store.length)) = true := hval
  rw [h] at hval1
  have hval2 : decide (old < s.store.length) = true := hval1
  exact of_decide_eq_true hval2

/-- C6: spawn succeeds exactly when the terrain of the creature's
target tile is passable.  On success it transfers ownership of the
creature into that tile, appends the fresh non-owning handle to the
registry and returns it, leaving the player slot alone; on failure it
returns nothing and grid, registry and player slot are completely
unchanged. -/
theorem c6_spawn_contract (s : GameState) (cr : Creature) (hwf : s.map.WF)
    (hcl : s.storeClosedB = true) :
    ((s.spawn cr).1.isSome = true ↔ (s.map.tileAt cr.pos.p).tiletype.is_passable = true) ∧
    ((s.map.tileAt cr.pos.p).tiletype.is_passable = false → s.spawn cr = (none, s)) ∧
    ((s.map.tileAt cr.pos.p).tiletype.is_passable = true →
      (s.spawn cr).1 = some s.store.length ∧
      (((s.spawn cr).2).map.tileAt cr.pos.p).creature = some s.store.length ∧
      ((s.spawn cr).2).upgrade s.store.length = some cr ∧
      ((s.spawn cr).2).creatures = s.creatures ++ [s.store.length] ∧
      ((s.spawn cr).2).player = s.player) := by
  by_cases hpass : (s.map.tileAt cr.pos.p).tiletype.is_passable = false
  · have hs : s.spawn cr = (none, s) := by
      unfold GameState.spawn
      rw [if_pos hpass]
    refine ⟨?_, fun _ => hs, fun ht => ?_⟩
    · rw [hs]
      constructor
      · intro hh
        exact absurd hh (by simp)
      · intro hh
        rw [hpass] at hh
        exact Bool.noConfusion hh
    · rw [hpass] at ht
      exact Bool.noConfusion ht
  · have hs : s.spawn cr = (some s.store.length,
        { s with
            map := s.map.setCreatureAt cr.pos.p (some s.store.length)
            store := match (s.map.tileAt cr.pos.p).creature with
              | some old => (s.store ++ [some cr]).set old none
              | none => s.store ++ [some cr]
            creatures := s.creatures ++ [s.store.length] }) := by
      unfold GameState.spawn
      rw [if_neg hpass]
    refine ⟨?_, fun hf => absurd hf hpass, fun ht => ?_⟩
    · rw [hs]
      constructor
      · intro _
        revert hpass
        cases (s.map.tileAt cr.pos.p).tiletype.is_passable with
        | false => intro hh; exact absurd rfl hh
        | true => intro _; rfl
      · intro _
        rfl
    · rw [hs]
      refine ⟨rfl, ?_, ?_, rfl, rfl⟩
      · show ((s.map.setCreatureAt cr.pos.p (some s.store.length)).tileAt cr.pos.p).creature
          = some s.store.length
        rw [Map.tileAt_setCreatureAt_same hwf _ rfl]
      · show (match (s.map.tileAt cr.pos.p).creature with
            | some old => (s.store ++ [some cr]).set old none
            | none => s.store ++ [some cr]).getD s.store.length none = some cr
        cases hev : (s.map.tileAt cr.pos.p).creature with
        | none => exact getD_concat_self _ _ _
        | some old =>
          have holdlt := storeClosed_lt hcl hwf hev
          rw [getD_set_ne _ _ _ (by omega)]
          exact getD_concat_self _ _ _

/-- Witness for C6: spawning onto the empty floor grid `stateW6`. -/
theorem c6_spawn_contract_witness :
    ((stateW6.spawn (mkCr 0 0 0 10 3 false .Human)).1.isSome = true ↔
      (stateW6.map.tileAt (mkCr 0 0 0 10 3 false .Human).pos.p).tiletype.is_passable = true) ∧
    ((stateW6.map.tileAt (mkCr 0 0 0 10 3 false .Human).pos.p).tiletype.is_passable = false →
      stateW6.spawn (mkCr 0 0 0 10 3 false .Human) = (none, stateW6)) ∧
    ((stateW6.map.tileAt (mkCr 0 0 0 10 3 false .Human).pos.p).tiletype.is_passable = true →
      (stateW6.spawn (mkCr 0 0 0 10 3 false .Human)).1 = some stateW6.store.length ∧
      (((stateW6.spawn (mkCr 0 0 0 10 3 false .Human)).2).map.tileAt
        (mkCr 0 0 0 10 3 false .Human).pos.p).creature = some stateW6.store.length ∧
      ((stateW6.spawn (mkCr 0 0 0 10 3 false .Human)).2).upgrade stateW6.store.length
        = some (mkCr 0 0 0 10 3 false .Human) ∧
      ((stateW6.spawn (mkCr 0 0 0 10 3 false .Human)).2).creatures
        = stateW6.creatures ++ [stateW6.store.length] ∧
      ((stateW6.spawn (mkCr 0 0 0 10 3 false .Human)).2).player = stateW6.player) :=
  c6_spawn_contract stateW6 (mkCr 0 0 0 10 3 false .Human)
    ⟨by decide, by decide, by decide⟩ (by decide)



/-! ### Claim C4 -/

/-- The tick pass appends to its trace only handles drawn from the
remaining snapshot, in snapshot order. -/
theorem tickLoop_trace (dec : Creature → Option Action) :
    ∀ (l : List Nat) (s : GameState) (tr0 : List Nat) (sp : GameState) (tr : List Nat),
      GameState.tickLoop dec l (s, tr0) = some (sp, tr) →
      ∃ t2, tr = tr0 ++ t2 ∧ t2.Sublist l := by
  intro l
  induction l with
  | nil =>
    intro s tr0 sp tr hp
    cases hp
    exact ⟨[], by simp, List.Sublist.refl _⟩
  | cons id rest ih =>
    intro s tr0 sp tr hp
    unfold GameState.tickLoop at hp
    split at hp
    · obtain ⟨t2, he, hsub⟩ := ih _ _ _ _ hp
      exact ⟨t2, he, hsub.cons id⟩
    · next cr0 hup =>
      split at hp
      · exact Option.noConfusion hp
      · simp only [] at hp
        split at hp
        · obtain ⟨t2, he, hsub⟩ := ih _ _ _ _ hp
          refine ⟨id :: t2, ?_, hsub.cons₂ id⟩
          rw [he, List.append_assoc]
          rfl
        · split at hp
          · exact Option.noConfusion hp
          · obtain ⟨t2, he, hsub⟩ := ih _ _ _ _ hp
            refine ⟨id :: t2, ?_, hsub.cons₂ id⟩
            rw [he, List.append_assoc]
            rfl

/-- C4: a tick call iterates exactly the snapshot of the registry
taken at the start of the call; the trace of handles given a turn is
an order-preserving sublist of that snapshot, so only handles present
at the start can act during the pass — a handle appended afterwards
acts no earlier than the next tick — and with a duplicate-free
registry each actor acts at most once. -/
theorem c4_tick_snapshot_order (dec : Creature → Option Action) (s sp : GameState)
    (tr : List Nat) (h : s.tickAux dec = some (sp, tr)) :
    s.tickAux dec = GameState.tickLoop dec s.creatures (s, []) ∧
    tr.Sublist s.creatures ∧
    (∀ j, j ∉ s.creatures → j ∉ tr) ∧
    (s.creatures.Nodup → tr.Nodup) := by
  have hp : GameState.tickLoop dec s.creatures (s, []) = some (sp, tr) := h
  obtain ⟨t2, he, hsub⟩ := tickLoop_trace dec s.creatures s [] sp tr hp
  have htr : tr = t2 := by
    rw [he]
    rfl
  subst htr
  refine ⟨rfl, hsub, ?_, fun hnd => hsub.nodup hnd⟩
  intro j hj hmem
  exact hj (hsub.mem hmem)

/-- Witness for C4: running a tick on `stateW5` with actors that
decide nothing. -/
theorem c4_tick_snapshot_order_witness :
    stateW5.tickAux (fun _ => none)
      = GameState.tickLoop (fun _ => none) stateW5.creatures (stateW5, []) ∧
    (((stateW5.tickAux (fun _ => none)).getD (GameState.new, [])).2).Sublist
      stateW5.creatures ∧
    (∀ j, j ∉ stateW5.creatures →
      j ∉ ((stateW5.tickAux (fun _ => none)).getD (GameState.new, [])).2) ∧
    (stateW5.creatures.Nodup →
      (((stateW5.tickAux (fun _ => none)).getD (GameState.new, [])).2).Nodup) :=
  c4_tick_snapshot_order (fun _ => none) stateW5
    ((stateW5.tickAux (fun _ => none)).getD (GameState.new, [])).1
    ((stateW5.tickAux (fun _ => none)).getD (GameState.new, [])).2 rfl

/-! ### Claim C5 -/

/-- C5: after a completed tick the registry is exactly the start
snapshot filtered by the retain predicate against the post-pass store:
every surviving handle still resolves to a living creature, every
other handle is dropped, and the registry length drops by exactly the
number of handles that no longer resolve to a living creature. -/
theorem c5_prune_exact (dec : Creature → Option Action) (s s2 : GameState)
    (h : s.tick dec = some s2) :
    s2.creatures = s.creatures.filter (fun id => liveInB s2.store id) ∧
    (∀ id, id ∈ s2.creatures → ∃ cr, s2.upgrade id = some cr ∧ cr.is_alive = true) ∧
    s2.creatures.length + s.creatures.countP (fun id => !liveInB s2.store id)
      = s.creatures.length := by
  unfold GameState.tick at h
  cases haux : s.tickAux dec with
  | none =>
    rw [haux] at h
    exact Option.noConfusion h
  | some acc =>
    rw [haux] at h
    obtain ⟨sp, trp⟩ := acc
    cases h
    refine ⟨rfl, ?_, ?_⟩
    · intro id hid
      have hid2 : id ∈ s.creatures.filter (fun j => liveInB sp.store j) := hid
      have hli := (List.mem_filter.mp hid2).2
      unfold liveInB at hli
      cases hc : sp.store.getD id none with
      | none =>
        rw [hc] at hli
        exact Bool.noConfusion hli
      | some cr =>
        rw [hc] at hli
        exact ⟨cr, hc, hli⟩
    · show (s.creatures.filter (fun j => liveInB sp.store j)).length
        + s.creatures.countP (fun id => !liveInB sp.store id) = s.creatures.length
      rw [← List.countP_eq_length_filter]
      have h1 := List.length_eq_countP_add_countP
        (fun j => liveInB sp.store j) s.creatures
      have h2 : s.creatures.countP (fun j => decide (¬(liveInB sp.store j) = true))
          = s.creatures.countP (fun j => !liveInB sp.store j) := by
        apply List.countP_congr
        intro a _
        cases liveInB sp.store a <;> simp
      omega

/-- Witness for C5: a tick over `stateW5` prunes the dead creature's
handle. -/
theorem c5_prune_exact_witness :
    ((stateW5.tick (fun _ => none)).getD GameState.new).creatures
      = stateW5.creatures.filter
        (fun id => liveInB ((stateW5.tick (fun _ => none)).getD GameState.new).store id) ∧
    (∀ id, id ∈ ((stateW5.tick (fun _ => none)).getD GameState.new).creatures →
      ∃ cr, ((stateW5.tick (fun _ => none)).getD GameState.new).upgrade id = some cr ∧
        cr.is_alive = true) ∧
    ((stateW5.tick (fun _ => none)).getD GameState.new).creatures.length
      + stateW5.creatures.countP
        (fun id => !liveInB ((stateW5.tick (fun _ => none)).getD GameState.new).store id)
      = stateW5.creatures.length :=
  c5_prune_exact (fun _ => none) stateW5
    ((stateW5.tick (fun _ => none)).getD GameState.new) rfl

/-! ### Claim C7 -/

/-- C7 counterexample: a fully saturated grid — every tile impassable
or occupied — on which the random spawn loop nevertheless returns at
once: the sample lands on the occupied floor tile and `spawn`
succeeds, because the spawn check considers terrain only. -/
theorem c7_saturated_spawn_terminates_counterexample :
    stateW7.saturatedB = true ∧
    (stateW7.spawn_randomF (constRng ⟨0, 0⟩ 0 ⟨⟨1, 1⟩, 0⟩) false Race.Scout 1).isSome
      = true := by
  constructor
  · decide
  · decide

/-- Every tile of an all-impassable well-formed grid is impassable,
whatever point is sampled. -/
theorem allImpassable_tileAt {s : GameState} (hwf : s.map.WF)
    (himp : s.allImpassableB = true) (p : Point) :
    (s.map.tileAt p).tiletype.is_passable = false := by
  unfold GameState.allImpassableB at himp
  rw [List.all_eq_true] at himp
  have hlt : s.map.idx p < s.map.tiles.length := by
    rw [hwf.len]
    exact Map.idx_lt hwf.wpos hwf.hpos p
  have hmem : s.map.tiles[s.map.idx p] ∈ s.map.tiles := List.getElem_mem hlt
  have hval := himp _ hmem
  have he : s.map.tileAt p = s.map.tiles[s.map.idx p] := by
    unfold Map.tileAt
    rw [List.getD_eq_getElem?_getD, List.getElem?_eq_getElem hlt]
    rfl
  rw [he]
  cases hcase : (s.map.tiles[s.map.idx p]).tiletype.is_passable with
  | false => rfl
  | true =>
    rw [hcase] at hval
    exact Bool.noConfusion hval

/-- C7 (amended): the spawn-retry loop has no iteration cap and each
failed attempt leaves the state unchanged, so on a grid whose every
tile is impassable it never returns, with any amount of fuel and any
random stream; mere saturation by occupants does not prevent
termination, since the spawn check considers terrain only. -/
theorem c7_spawn_random_unbounded (s : GameState) (hwf : s.map.WF)
    (himp : s.allImpassableB = true) :
    ∀ fuel rng player race, s.spawn_randomF rng player race fuel = none := by
  have hfail : ∀ c : Creature, s.spawn c = (none, s) := by
    intro c
    unfold GameState.spawn
    rw [if_pos (allImpassable_tileAt hwf himp c.pos.p)]
  intro fuel
  induction fuel with
  | zero =>
    intro rng player race
    rfl
  | succ n ih =>
    intro rng player race
    show (match s.spawn (Creature.new s.map (s.map.wrapPos (rng.genPosition.1)) player race) with
      | (some id, s2) => some (id, s2, rng.genPosition.2)
      | (none, s2) => GameState.spawn_randomF s2 rng.genPosition.2 player race n) = none
    rw [hfail]
    exact ih rng.genPosition.2 player race

/-- Witness for the amended C7 on the all-wall grid `stateW7b`. -/
theorem c7_spawn_random_unbounded_witness :
    stateW7b.spawn_randomF (constRng ⟨0, 0⟩ 0 ⟨⟨0, 0⟩, 0⟩) false Race.Scout 5 = none :=
  c7_spawn_random_unbounded stateW7b ⟨by decide, by decide, by decide⟩ (by decide)
    5 (constRng ⟨0, 0⟩ 0 ⟨⟨0, 0⟩, 0⟩) false Race.Scout



/-! ### Claim C9: world generation lemmas -/

theorem all_tileClosed_mono {l : List Tile} {n m : Nat} (hnm : n ≤ m)
    (h : l.all (tileClosed n) = true) : l.all (tileClosed m) = true := by
  rw [List.all_eq_true] at h ⊢
  intro t ht
  have hv := h t ht
  unfold tileClosed at hv ⊢
  cases hc : t.creature with
  | none => rfl
  | some id0 =>
    rw [hc] at hv
    have h2 : decide (id0 < n) = true := hv
    have h3 := of_decide_eq_true h2
    exact decide_eq_true (by omega)

theorem tileClosed_tileAt {m : Map} {n : Nat} (h : m.tiles.all (tileClosed n) = true)
    (p : Point) : tileClosed n (m.tileAt p) = true := by
  unfold Map.tileAt
  by_cases hlt : m.idx p < m.tiles.length
  · rw [List.getD_eq_getElem?_getD, List.getElem?_eq_getElem hlt]
    rw [List.all_eq_true] at h
    exact h _ (List.getElem_mem hlt)
  · rw [List.getD_eq_default _ _ (Nat.le_of_not_lt hlt)]
    rfl

theorem setTileTypeAt_all_closed {m : Map} {n : Nat} {p : Point} {t : TileType}
    (h : m.tiles.all (tileClosed n) = true) :
    (m.setTileTypeAt p t).tiles.all (tileClosed n) = true := by
  unfold Map.setTileTypeAt
  exact all_set_of_all h (tileClosed_tileAt h p)

/-- A successful spawn appends the creature at the end of the store
and the handle at the end of the registry, leaves the player slot
alone, and preserves or deallocates earlier slots. -/
theorem spawn_success_shape {s s' : GameState} {cr : Creature} {id : Nat}
    (hwf : s.map.WF) (hcl : s.storeClosedB = true)
    (h : s.spawn cr = (some id, s')) :
    id = s.store.length ∧
    s'.store.length = s.store.length + 1 ∧
    s'.creatures = s.creatures ++ [id] ∧
    s'.player = s.player ∧
    s'.upgrade id = some cr ∧
    (∀ j, j < s.store.length → (s'.upgrade j = s.upgrade j ∨ s'.upgrade j = none)) ∧
    s'.map.WF ∧
    s'.storeClosedB = true := by
  by_cases hpass : (s.map.tileAt cr.pos.p).tiletype.is_passable = false
  · exfalso
    unfold GameState.spawn at h
    rw [if_pos hpass] at h
    exact Option.noConfusion (congrArg Prod.fst h)
  · unfold GameState.spawn at h
    rw [if_neg hpass] at h
    simp only [] at h
    have h1 : some s.store.length = some id := congrArg Prod.fst h
    have hidv : s.store.length = id := Option.some.inj h1
    subst hidv
    have h2 := congrArg Prod.snd h
    subst h2
    have hcl' : s.map.tiles.all (tileClosed s.store.length) = true := hcl
    refine ⟨rfl, ?_, rfl, rfl, ?_, ?_, Map.setCreatureAt_wf hwf _ _, ?_⟩
    · cases hev : (s.map.tileAt cr.pos.p).creature with
      | none => simp
      | some old => simp [List.length_set]
    · cases hev : (s.map.tileAt cr.pos.p).creature with
      | none =>
        show (s.store ++ [some cr]).getD s.store.length none = some cr
        exact getD_concat_self _ _ _
      | some old =>
        have holdlt := storeClosed_lt hcl hwf hev
        show ((s.store ++ [some cr]).set old none).getD s.store.length none = some cr
        rw [getD_set_ne _ _ _ (by omega)]
        exact getD_concat_self _ _ _
    · intro j hj
      cases hev : (s.map.tileAt cr.pos.p).creature with
      | none =>
        refine Or.inl ?_
        show (s.store ++ [some cr]).getD j none = s.store.getD j none
        exact getD_append_lt _ _ _ _ hj
      | some old =>
        by_cases hjo : j = old
        · subst hjo
          refine Or.inr ?_
          show ((s.store ++ [some cr]).set j none).getD j none = none
          exact getD_set_self _ _ _ _ (by rw [List.length_append]; omega)
        · refine Or.inl ?_
          show ((s.store ++ [some cr]).set old none).getD j none = s.store.getD j none
          rw [getD_set_ne _ _ _ (fun hh => hjo hh.symm)]
          exact getD_append_lt _ _ _ _ hj
    · cases hev : (s.map.tileAt cr.pos.p).creature with
      | none =>
        show ((s.map.setCreatureAt cr.pos.p (some s.store.length)).tiles).all
          (tileClosed (s.store ++ [some cr]).length) = true
        have hL : (s.store ++ [some cr]).length = s.store.length + 1 := by simp
        rw [hL]
        unfold Map.setCreatureAt
        refine all_set_of_all (all_tileClosed_mono (by omega) hcl') ?_
        unfold tileClosed
        exact decide_eq_true (Nat.lt_succ_self _)
      | some old =>
        show ((s.map.setCreatureAt cr.pos.p (some s.store.length)).tiles).all
          (tileClosed ((s.store ++ [some cr]).set old none).length) = true
        have hL : ((s.store ++ [some cr]).set old none).length = s.store.length + 1 := by
          simp [List.length_set]
        rw [hL]
        unfold Map.setCreatureAt
        refine all_set_of_all (all_tileClosed_mono (by omega) hcl') ?_
        unfold tileClosed
        exact decide_eq_true (Nat.lt_succ_self _)

/-- A failed spawn returns the state unchanged. -/
theorem spawn_none_eq {s s2 : GameState} {cr : Creature} (h : s.spawn cr = (none, s2)) :
    s2 = s := by
  unfold GameState.spawn at h
  split at h
  · exact (congrArg Prod.snd h).symm
  · exact Option.noConfusion (congrArg Prod.fst h)

/-- A successful `spawn_random` is one successful spawn of a creature
of the requested race and player flag. -/
theorem spawn_randomF_shape {s : GameState} :
    ∀ (fuel : Nat) {rng : Rng} {player : Bool} {race : Race} {id : Nat} {s' : GameState}
      {rng' : Rng},
      s.spawn_randomF rng player race fuel = some (id, s', rng') →
      ∃ cr : Creature, cr.race = race ∧ cr.player = player ∧ s.spawn cr = (some id, s') := by
  intro fuel
  induction fuel with
  | zero =>
    intro rng player race id s' rng' h
    exact Option.noConfusion h
  | succ n ih =>
    intro rng player race id s' rng' h
    unfold GameState.spawn_randomF at h
    simp only [] at h
    split at h
    · next id2 s2 heq =>
      have h2 := Option.some.inj h
      have ha : id2 = id := congrArg (fun x => x.1) h2
      have hb : s2 = s' := congrArg (fun x => x.2.1) h2
      subst ha
      subst hb
      exact ⟨Creature.new s.map (s.map.wrapPos (rng.genPosition.1)) player race,
        rfl, rfl, heq⟩
    · next s2 heq =>
      have hs2 : s2 = s := spawn_none_eq heq
      subst hs2
      exact ih h



/-- Combined shape of one successful `spawn_random` call. -/
theorem spawn_randomF_success_shape {s s' : GameState} {rng rng' : Rng} {player : Bool}
    {race : Race} {id : Nat} {fuel : Nat}
    (hwf : s.map.WF) (hcl : s.storeClosedB = true)
    (h : s.spawn_randomF rng player race fuel = some (id, s', rng')) :
    id = s.store.length ∧
    s'.store.length = s.store.length + 1 ∧
    s'.creatures.length = s.creatures.length + 1 ∧
    s'.player = s.player ∧
    (∃ cr, cr.race = race ∧ cr.player = player ∧ s'.upgrade id = some cr) ∧
    (∀ j, j < s.store.length → (s'.upgrade j = s.upgrade j ∨ s'.upgrade j = none)) ∧
    s'.map.WF ∧ s'.storeClosedB = true := by
  obtain ⟨cr, hrace, hplayer, hsp⟩ := spawn_randomF_shape fuel h
  obtain ⟨hid, hlen, hcre, hpl, hup, hpres, hwf', hcl'⟩ := spawn_success_shape hwf hcl hsp
  refine ⟨hid, hlen, ?_, hpl, ⟨cr, hrace, hplayer, hup⟩, hpres, hwf', hcl'⟩
  rw [hcre]
  simp

/-- A population segment description is stable under steps that
preserve or deallocate existing slots. -/
theorem segRaceOk_mono {s s' : GameState} {a b : Nat} {r : Race}
    (hseg : s.segRaceOk a b r) (hb : b ≤ s.store.length)
    (hpres : ∀ j, j < s.store.length → (s'.upgrade j = s.upgrade j ∨ s'.upgrade j = none)) :
    s'.segRaceOk a b r := by
  intro j ha hjb cj hj
  rcases hpres j (by omega) with he | he
  · rw [he] at hj
    exact hseg j ha hjb cj hj
  · rw [he] at hj
    exact Option.noConfusion hj

/-- Shape of one population loop: the store grows by exactly the
requested count, the registry by as many handles, the new segment
holds only creatures of the requested race (or deallocated slots),
and earlier slots are preserved or deallocated. -/
theorem spawnMany_shape {race : Race} {fuel : Nat} :
    ∀ (n : Nat) (s : GameState) (rng : Rng) (s' : GameState) (rng' : Rng),
      s.map.WF → s.storeClosedB = true →
      s.spawnMany rng race fuel n = some (s', rng') →
      s'.store.length = s.store.length + n ∧
      s'.creatures.length = s.creatures.length + n ∧
      s'.player = s.player ∧
      (∀ j, j < s.store.length → (s'.upgrade j = s.upgrade j ∨ s'.upgrade j = none)) ∧
      s'.segRaceOk s.store.length s'.store.length race ∧
      s'.map.WF ∧ s'.storeClosedB = true := by
  intro n
  induction n with
  | zero =>
    intro s rng s' rng' hwf hcl h
    cases h
    refine ⟨by omega, by omega, rfl, fun j hj => Or.inl rfl, ?_, hwf, hcl⟩
    intro j ha hb cj hj
    exact absurd hb (by omega)
  | succ n ih =>
    intro s rng s' rng' hwf hcl h
    unfold GameState.spawnMany at h
    split at h
    · exact Option.noConfusion h
    · next x heq =>
      obtain ⟨id1, s1, rng1⟩ := x
      obtain ⟨hid, hlen1, hcre1, hpl1, ⟨cr, hrace, hplayer, hupcr⟩, hpres1, hwf1, hcl1⟩ :=
        spawn_randomF_success_shape hwf hcl heq
      obtain ⟨hlen2, hcre2, hpl2, hpres2, hseg2, hwf2, hcl2⟩ :=
        ih s1 rng1 s' rng' hwf1 hcl1 h
      refine ⟨by omega, by omega, by rw [hpl2, hpl1], ?_, ?_, hwf2, hcl2⟩
      · intro j hj
        rcases hpres2 j (by omega) with he2 | he2
        · rcases hpres1 j hj with he1 | he1
          · exact Or.inl (he2.trans he1)
          · exact Or.inr (he2.trans he1)
        · exact Or.inr he2
      · intro j ha hb cj hj
        by_cases hj1 : j = s.store.length
        · subst hj1
          rcases hpres2 s.store.length (by omega) with he2 | he2
          · rw [he2] at hj
            rw [← hid] at hj
            rw [hupcr] at hj
            have hcj : cr = cj := Option.some.inj hj
            subst hcj
            exact ⟨hrace, hplayer⟩
          · rw [he2] at hj
            exact Option.noConfusion hj
        · exact hseg2 j (by omega) (by omega) cj hj

/-- Folding a map-preserving step preserves a map predicate. -/
theorem foldl_preserve {β : Type _} (P : Map → Prop) (f : Map → β → Map)
    (hf : ∀ m b, P m → P (f m b)) :
    ∀ (l : List β) (m : Map), P m → P (List.foldl f m l) := by
  intro l
  induction l with
  | nil =>
    intro m hm
    exact hm
  | cons b rest ih =>
    intro m hm
    exact ih _ (hf m b hm)

/-- The combined map predicate preserved by all terrain painting. -/
def paintOk (w h n : Nat) (m : Map) : Prop :=
  m.WF ∧ m.width = w ∧ m.height = h ∧ m.tiles.all (tileClosed n) = true

theorem paintOk_setTileTypeAt {w h n : Nat} {m : Map} (p : Point) (t : TileType)
    (hm : paintOk w h n m) : paintOk w h n (m.setTileTypeAt p t) := by
  obtain ⟨h1, h2, h3, h4⟩ := hm
  exact ⟨Map.setTileTypeAt_wf h1 p t, h2, h3, setTileTypeAt_all_closed h4⟩

theorem paintOk_paintHex {w h n : Nat} {m : Map} (p : Point) (t : TileType)
    (hm : paintOk w h n m) : paintOk w h n (m.paintHex p t) := by
  unfold Map.paintHex
  refine foldl_preserve (paintOk w h n) _ ?_ _ _ (paintOk_setTileTypeAt p t hm)
  intro m2 d hm2
  exact paintOk_setTileTypeAt _ t hm2

theorem paintOk_forceBorders {w h n : Nat} {m : Map}
    (hm : paintOk w h n m) : paintOk w h n m.forceBorders := by
  unfold Map.forceBorders
  simp only []
  refine foldl_preserve (paintOk w h n) _ ?_ _ _
    (foldl_preserve (paintOk w h n) _ ?_ _ _ hm)
  · intro m2 y hm2
    exact paintOk_setTileTypeAt _ _ (paintOk_setTileTypeAt _ _ hm2)
  · intro m2 x hm2
    exact paintOk_setTileTypeAt _ _ (paintOk_setTileTypeAt _ _ hm2)

/-- The terrain seeding loop only repaints terrain: store, registry
and player are untouched and the paint predicate is preserved. -/
theorem terrainSeed_shape :
    ∀ (n : Nat) (s : GameState) (rng : Rng),
      (s.terrainSeed rng n).1.store = s.store ∧
      (s.terrainSeed rng n).1.creatures = s.creatures ∧
      (s.terrainSeed rng n).1.player = s.player ∧
      (∀ w h nn, paintOk w h nn s.map → paintOk w h nn (s.terrainSeed rng n).1.map) := by
  intro n
  induction n with
  | zero =>
    intro s rng
    exact ⟨rfl, rfl, rfl, fun w h nn hp => hp⟩
  | succ n ih =>
    intro s rng
    unfold GameState.terrainSeed
    obtain ⟨ha, hb, hc, hd⟩ := ih
      ({ s with
          map :=
            s.map.paintHex (s.map.wrap (rng.genPoint.1))
              (match (rng.genPoint.2.genRange6).1 with
                | 0 => TileType.GlassWall
                | 1 => TileType.Sand
                | _ => TileType.Wall) })
      (rng.genPoint.2.genRange6).2
    refine ⟨ha, hb, hc, ?_⟩
    intro w h nn hp
    exact hd w h nn (paintOk_paintHex _ _ hp)



/-- C9: a completed `randomize_map` run performs exactly area/200
scout spawns, then area/400 grunt spawns, then area/800 heavy spawns,
all non-player, and afterwards exactly one player-controlled human
spawn whose fresh handle is recorded as the player handle.  The store
and the registry grow by exactly the total number of spawns; each
population segment of the store holds only creatures of its race (a
slot may have been deallocated by a later spawn onto the same tile). -/
theorem c9_randomize_population (s : GameState) (rng : Rng) (fuel : Nat) (s2 : GameState)
    (hwf : s.map.WF) (hcl : s.storeClosedB = true)
    (h : s.randomize_mapF rng fuel = some s2) :
    s2.store.length = s.store.length + (s.map.width * s.map.height / 200
      + s.map.width * s.map.height / 400 + s.map.width * s.map.height / 800 + 1) ∧
    s2.creatures.length = s.creatures.length + (s.map.width * s.map.height / 200
      + s.map.width * s.map.height / 400 + s.map.width * s.map.height / 800 + 1) ∧
    s2.segRaceOk s.store.length
      (s.store.length + s.map.width * s.map.height / 200) Race.Scout ∧
    s2.segRaceOk (s.store.length + s.map.width * s.map.height / 200)
      (s.store.length + s.map.width * s.map.height / 200
        + s.map.width * s.map.height / 400) Race.Grunt ∧
    s2.segRaceOk (s.store.length + s.map.width * s.map.height / 200
        + s.map.width * s.map.height / 400)
      (s.store.length + s.map.width * s.map.height / 200
        + s.map.width * s.map.height / 400 + s.map.width * s.map.height / 800)
      Race.Heavy ∧
    (∃ pc, s2.upgrade (s.store.length + s.map.width * s.map.height / 200
        + s.map.width * s.map.height / 400 + s.map.width * s.map.height / 800) = some pc ∧
      pc.race = Race.Human ∧ pc.player = true) ∧
    s2.player = some (s.store.length + s.map.width * s.map.height / 200
      + s.map.width * s.map.height / 400 + s.map.width * s.map.height / 800) := by
  unfold GameState.randomize_mapF at h
  simp only [] at h
  obtain ⟨hst, hcre, hpl, hpaint⟩ :=
    terrainSeed_shape (s.map.width * s.map.height / 12) s rng
  have hpOk : paintOk s.map.width s.map.height s.store.length
      (({ (s.terrainSeed rng (s.map.width * s.map.height / 12)).1 with
          map := (s.terrainSeed rng
            (s.map.width * s.map.height / 12)).1.map.forceBorders }) : GameState).map :=
    paintOk_forceBorders (hpaint _ _ _ ⟨hwf, rfl, rfl, hcl⟩)
  have hS1store : (({ (s.terrainSeed rng (s.map.width * s.map.height / 12)).1 with
      map := (s.terrainSeed rng
        (s.map.width * s.map.height / 12)).1.map.forceBorders }) : GameState).store
      = s.store := hst
  have hS1cre : (({ (s.terrainSeed rng (s.map.width * s.map.height / 12)).1 with
      map := (s.terrainSeed rng
        (s.map.width * s.map.height / 12)).1.map.forceBorders }) : GameState).creatures
      = s.creatures := hcre
  have hS1pl : (({ (s.terrainSeed rng (s.map.width * s.map.height / 12)).1 with
      map := (s.terrainSeed rng
        (s.map.width * s.map.height / 12)).1.map.forceBorders }) : GameState).player
      = s.player := hpl
  have hS1len : (({ (s.terrainSeed rng (s.map.width * s.map.height / 12)).1 with
      map := (s.terrainSeed rng
        (s.map.width * s.map.height / 12)).1.map.forceBorders }) : GameState).store.length
      = s.store.length := by rw [hS1store]
  have hS1cl : (({ (s.terrainSeed rng (s.map.width * s.map.height / 12)).1 with
      map := (s.terrainSeed rng
        (s.map.width * s.map.height / 12)).1.map.forceBorders }) : GameState).storeClosedB
      = true := by
    show (({ (s.terrainSeed rng (s.map.width * s.map.height / 12)).1 with
      map := (s.terrainSeed rng
        (s.map.width * s.map.height / 12)).1.map.forceBorders }) : GameState).map.tiles.all
      (tileClosed (({ (s.terrainSeed rng (s.map.width * s.map.height / 12)).1 with
        map := (s.terrainSeed rng
          (s.map.width * s.map.height / 12)).1.map.forceBorders }) : GameState).store.length)
      = true
    rw [hS1len]
    exact hpOk.2.2.2
  split at h
  · exact Option.noConfusion h
  · next sA rngA heq1 =>
    obtain ⟨hAlen, hAcre, hApl, hApres, hAseg, hAwf, hAcl⟩ :=
      spawnMany_shape _ _ _ _ _ hpOk.1 hS1cl heq1
    split at h
    · exact Option.noConfusion h
    · next sB rngB heq2 =>
      obtain ⟨hBlen, hBcre, hBpl, hBpres, hBseg, hBwf, hBcl⟩ :=
        spawnMany_shape _ _ _ _ _ hAwf hAcl heq2
      split at h
      · exact Option.noConfusion h
      · next sC rngC heq3 =>
        obtain ⟨hClen, hCcre, hCpl, hCpres, hCseg, hCwf, hCcl⟩ :=
          spawnMany_shape _ _ _ _ _ hBwf hBcl heq3
        split at h
        · exact Option.noConfusion h
        · next pid sD rngD heq4 =>
          obtain ⟨hpid, hDlen, hDcre, hDpl, ⟨pc, hpcrace, hpcplayer, hpcup⟩,
            hDpres, hDwf, hDcl⟩ := spawn_randomF_success_shape hCwf hCcl heq4
          cases h
          have hAlen' : sA.store.length
              = s.store.length + s.map.width * s.map.height / 200 := by
            rw [hAlen, hS1len]
          have hBlen' : sB.store.length
              = s.store.length + s.map.width * s.map.height / 200
                + s.map.width * s.map.height / 400 := by
            rw [hBlen, hAlen']
          have hClen' : sC.store.length
              = s.store.length + s.map.width * s.map.height / 200
                + s.map.width * s.map.height / 400
                + s.map.width * s.map.height / 800 := by
            rw [hClen, hBlen']
          have hS1creLen : (({ (s.terrainSeed rng
              (s.map.width * s.map.height / 12)).1 with
              map := (s.terrainSeed rng
                (s.map.width * s.map.height
                  / 12)).1.map.forceBorders }) : GameState).creatures.length
              = s.creatures.length := by rw [hS1cre]
          refine ⟨?_, ?_, ?_, ?_, ?_, ?_, ?_⟩
          · show sD.store.length = _
            omega
          · show sD.creatures.length = _
            omega
          · show sD.segRaceOk s.store.length
              (s.store.length + s.map.width * s.map.height / 200) Race.Scout
            have hseg1 : sA.segRaceOk s.store.length
                (s.store.length + s.map.width * s.map.height / 200) Race.Scout := by
              have hx := hAseg
              rw [hS1len, hAlen'] at hx
              exact hx
            have hseg2 : sB.segRaceOk s.store.length
                (s.store.length + s.map.width * s.map.height / 200) Race.Scout :=
              segRaceOk_mono hseg1 (by omega) hBpres
            have hseg3 : sC.segRaceOk s.store.length
                (s.store.length + s.map.width * s.map.height / 200) Race.Scout :=
              segRaceOk_mono hseg2 (by omega) hCpres
            exact segRaceOk_mono hseg3 (by omega) hDpres
          · show sD.segRaceOk (s.store.length + s.map.width * s.map.height / 200)
              (s.store.length + s.map.width * s.map.height / 200
                + s.map.width * s.map.height / 400) Race.Grunt
            have hseg1 : sB.segRaceOk (s.store.length + s.map.width * s.map.height / 200)
                (s.store.length + s.map.width * s.map.height / 200
                  + s.map.width * s.map.height / 400) Race.Grunt := by
              have hx := hBseg
              rw [hAlen', hBlen'] at hx
              exact hx
            have hseg2 : sC.segRaceOk (s.store.length + s.map.width * s.map.height / 200)
                (s.store.length + s.map.width * s.map.height / 200
                  + s.map.width * s.map.height / 400) Race.Grunt :=
              segRaceOk_mono hseg1 (by omega) hCpres
            exact segRaceOk_mono hseg2 (by omega) hDpres
          · show sD.segRaceOk (s.store.length + s.map.width * s.map.height / 200
                + s.map.width * s.map.height / 400)
              (s.store.length + s.map.width * s.map.height / 200
                + s.map.width * s.map.height / 400 + s.map.width * s.map.height / 800)
              Race.Heavy
            have hseg1 : sC.segRaceOk (s.store.length + s.map.width * s.map.height / 200
                + s.map.width * s.map.height / 400)
                (s.store.length + s.map.width * s.map.height / 200
                  + s.map.width * s.map.height / 400 + s.map.width * s.map.height / 800)
                Race.Heavy := by
              have hx := hCseg
              rw [hBlen', hClen'] at hx
              exact hx
            exact segRaceOk_mono hseg1 (by omega) hDpres
          · refine ⟨pc, ?_, hpcrace, hpcplayer⟩
            show sD.upgrade _ = some pc
            rw [show s.store.length + s.map.width * s.map.height / 200
              + s.map.width * s.map.height / 400 + s.map.width * s.map.height / 800
              = pid from by omega]
            exact hpcup
          · show some pid = some _
            rw [show s.store.length + s.map.width * s.map.height / 200
              + s.map.width * s.map.height / 400 + s.map.width * s.map.height / 800
              = pid from by omega]



/-- Witness for C9: world generation on the empty 4 by 4 grid (area
16: no monsters, exactly the player). -/
theorem c9_randomize_population_witness :
    (fun (W9R : GameState) =>
    W9R.store.length = stateW9.store.length + (stateW9.map.width * stateW9.map.height / 200
      + stateW9.map.width * stateW9.map.height / 400 + stateW9.map.width * stateW9.map.height / 800 + 1) ∧
    W9R.creatures.length = stateW9.creatures.length + (stateW9.map.width * stateW9.map.height / 200
      + stateW9.map.width * stateW9.map.height / 400 + stateW9.map.width * stateW9.map.height / 800 + 1) ∧
    W9R.segRaceOk stateW9.store.length
      (stateW9.store.length + stateW9.map.width * stateW9.map.height / 200) Race.Scout ∧
    W9R.segRaceOk (stateW9.store.length + stateW9.map.width * stateW9.map.height / 200)
      (stateW9.store.length + stateW9.map.width * stateW9.map.height / 200
        + stateW9.map.width * stateW9.map.height / 400) Race.Grunt ∧
    W9R.segRaceOk (stateW9.store.length + stateW9.map.width * stateW9.map.height / 200
        + stateW9.map.width * stateW9.map.height / 400)
      (stateW9.store.length + stateW9.map.width * stateW9.map.height / 200
        + stateW9.map.width * stateW9.map.height / 400 + stateW9.map.width * stateW9.map.height / 800)
      Race.Heavy ∧
    (∃ pc, W9R.upgrade (stateW9.store.length + stateW9.map.width * stateW9.map.height / 200
        + stateW9.map.width * stateW9.map.height / 400 + stateW9.map.width * stateW9.map.height / 800) = some pc ∧
      pc.race = Race.Human ∧ pc.player = true) ∧
    W9R.player = some (stateW9.store.length + stateW9.map.width * stateW9.map.height / 200
      + stateW9.map.width * stateW9.map.height / 400 + stateW9.map.width * stateW9.map.height / 800)) ((stateW9.randomize_mapF (constRng ⟨2, 2⟩ 1 ⟨⟨1, 1⟩, 0⟩) 3).getD GameState.new) :=
  c9_randomize_population stateW9 (constRng ⟨2, 2⟩ 1 ⟨⟨1, 1⟩, 0⟩) 3
    ((stateW9.randomize_mapF (constRng ⟨2, 2⟩ 1 ⟨⟨1, 1⟩, 0⟩) 3).getD GameState.new)
    ⟨by decide, by decide, by decide⟩ (by decide) rfl


end RustyHex
